import Mathlib

/-!
xLearn `Solver`: a shallow embedding of `src/solver/solver.cc`.

The file embeds `Solver::Initialize` and its helpers (`create_parser`,
`create_reader`, `create_updater`, `create_score`, `create_loss`,
`find_max_feature`, `find_max_field`) as executable Lean functions and proves
properties of them.

Conventions of the embedding

* `index_t` and `int` are declared outside `solver.cc`.  Their values are
  embedded as natural numbers (integers where a sign matters); comparisons and
  copies act on these values.  The one place where `solver.cc` computes with
  `index_t` is the formula for `num_param`: there the arithmetic is that of an
  unsigned machine type of `index_bits` bits, that is modulo `2 ^ index_bits`,
  the width being a parameter of the embedding (`Env.index_bits`).
* `real_t` values are embedded as rationals.
* A C++ pointer is an `Option`; dereferencing `none` is the fault
  `Fault.null_deref` (the outcome `Result.crashed` of `Initialize`).
* Classes that `solver.cc` only uses (`Reader`, `Model`, the registry macros,
  the `CHECK_*` macros, `HyperParam`) are parameters of the embedding or are
  modelled from the specification; each such definition says so.
-/

namespace xLearn

/-! ## Data model -/

/-- Unsigned index type of the program (`index_t`). -/
abbrev index_t := Nat

/-- Real type of the program (`real_t`). -/
abbrev real_t := Rat

/-- Implicit C++ conversion `real_t → index_t` that the assignment
`res = row->X[j]` performs: truncation toward zero.  (For values `≤ -1` the
C++ conversion is undefined; the embedding returns `0` there.) -/
def real_to_index (x : real_t) : index_t := x.num.toNat / x.den

/-- Modelled from the spec: one entry of a sparse row ("an ordered list of
(feature index, value) pairs, optionally paired with field identifiers").
The entry at position `j` holds `row->idx[j]`, `row->X[j]`, `row->field[j]`. -/
structure Node where
  idx : index_t
  X : real_t
  field : index_t
deriving DecidableEq, Repr

/-- Modelled from the spec: the sparse example `SparseRow`; `column_len` is the
number of entries. -/
structure SparseRow where
  entries : List Node
deriving DecidableEq, Repr

/-- Number of entries of the row (`row->column_len`). -/
def SparseRow.column_len (row : SparseRow) : Nat := row.entries.length

/-- Modelled from the spec: a batch of rows (`DMatrix`, field `row`). -/
structure DMatrix where
  row : List SparseRow
deriving DecidableEq, Repr

/-- Faults of the C++ program that the embedding makes explicit. -/
inductive Fault where
  | null_deref
  | out_of_range
deriving DecidableEq, Repr

/-! ## `find_max_feature` and `find_max_field` -/

/-- Body of the inner loop of `find_max_feature` (source lines 300-302):
`if (row->idx[j] > res) res = row->X[j];`. -/
def feature_step (res : index_t) (e : Node) : index_t :=
  if e.idx > res then real_to_index e.X else res

/-- Body of the inner loop of `find_max_field` (source lines 314-316):
`if (row->field[j] > res) res = row->field[j];`. -/
def field_step (res : index_t) (e : Node) : index_t :=
  if e.field > res then e.field else res

/-- Outer loop `for (int i = ...; i < num_samples; ++i)` shared by both
functions: `n` iterations remain, `i` is the loop counter, `res` the running
result, `step` the inner loop body.  Reading `matrix->row[i]` dereferences
`matrix`. -/
def find_max_from (step : index_t → Node → index_t) (matrix : Option DMatrix) :
    Nat → Nat → index_t → Except Fault index_t
  | 0, _, res => .ok res
  | n + 1, i, res =>
    match matrix with
    | none => .error .null_deref
    | some m =>
      match m.row[i]? with
      | none => .error .out_of_range
      | some row => find_max_from step matrix n (i + 1) (row.entries.foldl step res)

/-- Embedding of `Solver::find_max_feature` (source lines 295-306). -/
def find_max_feature (matrix : Option DMatrix) (num_samples : Nat) : Except Fault index_t :=
  find_max_from feature_step matrix num_samples 0 0

/-- Embedding of `Solver::find_max_field` (source lines 309-320). -/
def find_max_field (matrix : Option DMatrix) (num_samples : Nat) : Except Fault index_t :=
  find_max_from field_step matrix num_samples 0 0

/-! ## Configuration and components -/

/-- The configuration `hyper_param_` (declared outside `solver.cc`): the fields
that `solver.cc` reads or writes. -/
structure HyperParam where
  is_train : Bool
  train_set_file : String
  test_set_file : String
  inference_file : String
  model_checkpoint_file : String
  cross_validation : Bool
  num_folds : Int
  batch_size : Int
  score_func : String
  loss_func : String
  updater_type : String
  file_format : String
  on_disk : Bool
  num_K : Nat
  num_feature : index_t
  num_field : index_t
  num_param : index_t
deriving DecidableEq, Repr

/-- A parser object produced by the registry. -/
structure Parser where
  kind : String
deriving DecidableEq, Repr

/-- Modelled from the spec: the class `Reader` ("rewindable, lazy producer of
Batches from a file", "owns a cursor over one file", "a batch of size 0 is the
end-of-stream sentinel").  `batches` is the content of one full pass,
`cursor` the number of batches already handed out in the current pass. -/
structure Reader where
  kind : String
  filename : String
  batch_size : Int
  parser : Option Parser
  batches : List DMatrix
  cursor : Nat
deriving DecidableEq, Repr

/-- Modelled from the spec: `Reader::Initialize(filename, batch_size, parser)`
binds the reader to a file; `content` is the sequence of batches that a pass
over that file yields. -/
def Reader.Initialize (r : Reader) (filename : String) (batch_size : Int)
    (parser : Option Parser) (content : List DMatrix) : Reader :=
  { r with filename := filename, batch_size := batch_size, parser := parser,
           batches := content, cursor := 0 }

/-- Modelled from the spec: `Reader::Samples(matrix)` hands out the next batch
and returns its number of rows; at the end of the stream it returns `0` (and
the embedding sets `matrix` to null). -/
def Reader.Samples (r : Reader) : Reader × Option DMatrix × Nat :=
  match r.batches[r.cursor]? with
  | none => (r, none, 0)
  | some m => ({ r with cursor := r.cursor + 1 }, some m, m.row.length)

/-- Modelled from the spec: `Reader::Reset()` rewinds the reader to its
first-batch state. -/
def Reader.Reset (r : Reader) : Reader := { r with cursor := 0 }

/-- An updater object; `hyper_param` is what `Updater::Initialize` received. -/
structure Updater where
  kind : String
  hyper_param : Option HyperParam
deriving DecidableEq, Repr

/-- A score-function object; `hyper_param` is what `Score::Initialize`
received. -/
structure Score where
  kind : String
  hyper_param : Option HyperParam
deriving DecidableEq, Repr

/-- A loss-function object; `score` is what `Loss::Initialize` received. -/
structure Loss where
  kind : String
  score : Option Score
deriving DecidableEq, Repr

/-- Metadata stored in a model checkpoint. -/
structure ModelMeta where
  score_func : String
  num_feature : index_t
  num_K : Nat
  num_field : index_t
deriving DecidableEq, Repr

/-- The two constructor calls of `Model` that `solver.cc` makes:
`new Model(hyper_param_, gaussian)` and `new Model(filename)`. -/
inductive Model where
  | fresh (hyper_param : HyperParam) (gaussian : Bool)
  | loaded (filename : String) (metadata : ModelMeta)
deriving DecidableEq, Repr

/-- Modelled from the spec: accessor `Model::GetScoreFunction`. -/
def Model.GetScoreFunction : Model → String
  | .fresh hp _ => hp.score_func
  | .loaded _ md => md.score_func

/-- Modelled from the spec: accessor `Model::GetNumFeature`. -/
def Model.GetNumFeature : Model → index_t
  | .fresh hp _ => hp.num_feature
  | .loaded _ md => md.num_feature

/-- Modelled from the spec: accessor `Model::GetNumK`. -/
def Model.GetNumK : Model → Nat
  | .fresh hp _ => hp.num_K
  | .loaded _ md => md.num_K

/-- Modelled from the spec: accessor `Model::GetNumField`. -/
def Model.GetNumField : Model → index_t
  | .fresh hp _ => hp.num_field
  | .loaded _ md => md.num_field

/-! ## The solver -/

/-- Everything `solver.cc` obtains from code outside the file: the argument
checker `checker_`, the registry macros `CREATE_*` (a null result is `none`),
the batches a reader bound to a file yields (`content`, read after the fold
files have been written), the metadata of the checkpoint files, and the number
of bits of the unsigned type `index_t` (`index_bits`). -/
structure Env where
  index_bits : Nat
  Check : List String → Option HyperParam
  CREATE_PARSER : String → Option Parser
  CREATE_READER : String → Option Reader
  CREATE_UPDATER : String → Option Updater
  CREATE_SCORE : String → Option Score
  CREATE_LOSS : String → Option Loss
  content : String → Int → List DMatrix
  checkpoint : String → ModelMeta

/-- The member variables of `Solver`, together with the lines written through
`LOG(ERROR)` (`log`) and the calls made to `splitor_.split` (`split_calls`). -/
structure Solver where
  hyper_param_ : HyperParam
  parser_ : Option Parser
  reader_ : List (Option Reader)
  model_ : Option Model
  updater_ : Option Updater
  score_ : Option Score
  loss_ : Option Loss
  split_calls : List (String × Int)
  log : List String
deriving DecidableEq, Repr

/-- Configuration of a solver before `checker_.Check` has filled it. -/
def HyperParam.blank : HyperParam :=
  { is_train := true, train_set_file := "", test_set_file := "", inference_file := "",
    model_checkpoint_file := "", cross_validation := false, num_folds := 0,
    batch_size := 0, score_func := "", loss_func := "", updater_type := "",
    file_format := "", on_disk := false, num_K := 0, num_feature := 0,
    num_field := 0, num_param := 0 }

/-- A newly constructed `Solver`: no component exists yet. -/
def Solver.blank : Solver :=
  { hyper_param_ := HyperParam.blank, parser_ := none, reader_ := [], model_ := none,
    updater_ := none, score_ := none, loss_ := none, split_calls := [], log := [] }

/-- Ways in which a run of `Initialize` (or of one of its parts) ends.
`done` : the code ran to its end.  `exited` : `exit(0)` after a failed
argument check.  `aborted` : a `CHECK_*` failed (modelled from the spec: "fatal
precondition violations ... abort initialization").  `crashed` : a null pointer
was dereferenced or an index was out of range.  `no_fuel` : the pre-scan loop of
the embedding ran out of fuel.  The failure cases carry the solver as it was at
that point. -/
inductive Result (α : Type) where
  | done (a : α)
  | exited (s : Solver)
  | aborted (s : Solver)
  | crashed (s : Solver)
  | no_fuel (s : Solver)
deriving DecidableEq, Repr

/-- Sequencing of two parts of `Initialize`. -/
def Result.bind {α β : Type} (r : Result α) (f : α → Result β) : Result β :=
  match r with
  | .done a => f a
  | .exited s => .exited s
  | .aborted s => .aborted s
  | .crashed s => .crashed s
  | .no_fuel s => .no_fuel s

/-- One line written through `LOG(ERROR)`. -/
def Solver.log_error (s : Solver) (msg : String) : Solver :=
  { s with log := s.log ++ [msg] }

/-- Embedding of `Solver::create_parser` (source lines 240-248); the trailing
underscore only keeps the name apart from the reserved parser names of Lean. -/
def create_parser_ (env : Env) (s : Solver) : Option Parser × Solver :=
  match env.CREATE_PARSER s.hyper_param_.file_format with
  | none => (none, s.log_error ("Cannot create parser: " ++ s.hyper_param_.file_format))
  | some p => (some p, s)

/-- Embedding of `Solver::create_reader` (source lines 251-259). -/
def create_reader (env : Env) (s : Solver) : Option Reader × Solver :=
  let str := if s.hyper_param_.on_disk then "disk" else "memory"
  match env.CREATE_READER str with
  | none => (none, s.log_error ("Cannot create reader: " ++ str))
  | some r => (some r, s)

/-- Embedding of `Solver::create_updater` (source lines 262-270). -/
def create_updater (env : Env) (s : Solver) : Option Updater × Solver :=
  match env.CREATE_UPDATER s.hyper_param_.updater_type with
  | none => (none, s.log_error ("Cannot create updater: " ++ s.hyper_param_.updater_type))
  | some u => (some u, s)

/-- Embedding of `Solver::create_score` (source lines 273-281). -/
def create_score (env : Env) (s : Solver) : Option Score × Solver :=
  match env.CREATE_SCORE s.hyper_param_.score_func with
  | none => (none, s.log_error ("Cannot create score: " ++ s.hyper_param_.score_func))
  | some sc => (some sc, s)

/-- Embedding of `Solver::create_loss` (source lines 284-292). -/
def create_loss (env : Env) (s : Solver) : Option Loss × Solver :=
  match env.CREATE_LOSS s.hyper_param_.loss_func with
  | none => (none, s.log_error ("Cannot create loss: " ++ s.hyper_param_.loss_func))
  | some l => (some l, s)

/-! ### Train path, step 3: readers -/

/-- Source lines 78-83: the checks and the split made when `-cv` is used. -/
def train_split (s : Solver) : Result Solver :=
  if s.hyper_param_.cross_validation then
    if s.hyper_param_.train_set_file = "" then .aborted s
    else if s.hyper_param_.num_folds > 0 then
      .done { s with split_calls :=
                s.split_calls ++ [(s.hyper_param_.train_set_file, s.hyper_param_.num_folds)] }
    else .aborted s
  else .done s

/-- Modelled from the spec: `StringPrintf("%s_%d", base, i)` (the fold file
name `"<train_set_file>_<fold_index>"`). -/
def StringPrintf (base : String) (i : Nat) : String :=
  base ++ "_" ++ toString i

/-- Source lines 89-94: the loop `for (int i = 0; i < num_folds; ++i)` that
pushes one fold file name per iteration; `n` iterations remain. -/
def push_fold_files (base : String) : Nat → Nat → List String → List String
  | 0, _, file_list => file_list
  | n + 1, i, file_list => push_fold_files base n (i + 1) (file_list ++ [StringPrintf base i])

/-- Source lines 85-103: the values of `num_reader` and `file_list`. -/
def train_file_list (s : Solver) : Result (Int × List String) :=
  if s.hyper_param_.cross_validation then
    .done (0 + s.hyper_param_.num_folds,
           push_fold_files s.hyper_param_.train_set_file s.hyper_param_.num_folds.toNat 0 [])
  else
    if s.hyper_param_.train_set_file = "" then .aborted s
    else if s.hyper_param_.test_set_file ≠ "" then
      .done (0 + 1 + 1, [s.hyper_param_.train_set_file, s.hyper_param_.test_set_file])
    else
      .done (0 + 1, [s.hyper_param_.train_set_file])

/-- The call `v.resize(n, x)` of `std::vector`. -/
def vector_resize {α : Type} (v : List α) (n : Nat) (x : α) : List α :=
  v.take n ++ List.replicate (n - v.length) x

/-- Source lines 108-113: the loop that creates and initialises reader `i`;
`n` iterations remain. -/
def create_readers_loop (env : Env) (file_list : List String) :
    Nat → Nat → Solver → Result Solver
  | 0, _, s => .done s
  | n + 1, i, s =>
    let cr := create_reader env s
    let s1 := { cr.2 with reader_ := cr.2.reader_.set i cr.1 }
    match cr.1 with
    | none => .crashed s1
    | some r =>
      match file_list[i]? with
      | none => .crashed s1
      | some f =>
        let r1 := r.Initialize f s1.hyper_param_.batch_size s1.parser_
                    (env.content f s1.hyper_param_.batch_size)
        create_readers_loop env file_list n (i + 1) { s1 with reader_ := s1.reader_.set i (some r1) }

/-- Source lines 104-113: `reader_.resize`, `create_parser`, and the reader
loop. -/
def train_create_readers (env : Env) (s : Solver) (num_reader : Int)
    (file_list : List String) : Result Solver :=
  let s1 := { s with reader_ := vector_resize s.reader_ num_reader.toNat none }
  let cp := create_parser_ env s1
  let s2 := { cp.2 with parser_ := cp.1 }
  create_readers_loop env file_list num_reader.toNat 0 s2

/-! ### Train path, step 3: the pre-scan -/

/-- Source lines 121-130: the statements of the `do` body that follow the call
of `Samples`.  `tmp > max_feat` and `tmp > max_field` are the two guarded
assignments; `find_max_field` is called only when the family is `"ffm"`. -/
def scan_body (score_func : String) (matrix : Option DMatrix) (num_samples : Nat)
    (max_feat max_field : index_t) : Except Fault (index_t × index_t) :=
  match find_max_feature matrix num_samples with
  | .error f => .error f
  | .ok tmp =>
    let max_feat1 := if tmp > max_feat then tmp else max_feat
    if score_func = "ffm" then
      match find_max_field matrix num_samples with
      | .error f => .error f
      | .ok tmp2 => .ok (max_feat1, if tmp2 > max_field then tmp2 else max_field)
    else .ok (max_feat1, max_field)

/-- Why a run of the `do ... while` loop of the embedding stops without a
result. -/
inductive Stop where
  | fault (f : Fault)
  | no_fuel
deriving DecidableEq, Repr

/-- Source lines 119-131: the loop `do { ... } while (num_samples != 0)` on one
reader.  The first argument bounds the number of iterations. -/
def scan_reader (score_func : String) :
    Nat → Reader → index_t → index_t → Except Stop (Reader × index_t × index_t)
  | 0, _, _, _ => .error .no_fuel
  | fuel + 1, r, max_feat, max_field =>
    let sm := r.Samples
    match scan_body score_func sm.2.1 sm.2.2 max_feat max_field with
    | .error f => .error (.fault f)
    | .ok mx =>
      if sm.2.2 ≠ 0 then scan_reader score_func fuel sm.1 mx.1 mx.2
      else .ok (sm.1, mx.1, mx.2)

/-- Source lines 117-136: the loop `for (int i = 0; i < num_reader; ++i)` of the
pre-scan; `n` iterations remain.  The result carries the final values of the
local variables `max_feat` and `max_field`. -/
def prescan_loop : Nat → Nat → Solver → index_t → index_t →
    Result (Solver × index_t × index_t)
  | 0, _, s, max_feat, max_field => .done (s, max_feat, max_field)
  | n + 1, i, s, max_feat, max_field =>
    match s.reader_[i]? with
    | none => .crashed s
    | some none => .crashed s
    | some (some r) =>
      match scan_reader s.hyper_param_.score_func (r.batches.length + 1) r max_feat max_field with
      | .error (.fault _) => .crashed s
      | .error .no_fuel => .no_fuel s
      | .ok out =>
        let hp1 := { s.hyper_param_ with num_feature := out.2.1, num_field := out.2.2 }
        prescan_loop n (i + 1)
          { s with hyper_param_ := hp1, reader_ := s.reader_.set i (some out.1.Reset) }
          out.2.1 out.2.2

/-! ### Train path, steps 4-6 -/

/-- Result of an arithmetic expression of type `index_t`, an unsigned machine
type of `bits` bits: the mathematical value modulo `2 ^ bits`. -/
def index_wrap (bits : Nat) (n : Nat) : index_t := n % 2 ^ bits

/-- Source lines 140-148: the value of `num_param`, computed in `index_t`
arithmetic of `bits` bits. -/
def init_num_param (bits : Nat) (s : Solver) (max_feat max_field : index_t) : Solver :=
  if s.hyper_param_.score_func = "fm" then
    { s with hyper_param_ :=
        { s.hyper_param_ with
            num_param := index_wrap bits (max_feat + 1 + max_feat * s.hyper_param_.num_K) } }
  else if s.hyper_param_.score_func = "ffm" then
    { s with hyper_param_ :=
        { s.hyper_param_ with
            num_param :=
              index_wrap bits (max_feat + 1 + max_feat * max_field * s.hyper_param_.num_K) } }
  else
    { s with hyper_param_ := { s.hyper_param_ with num_param := index_wrap bits (max_feat + 1) } }

/-- Source lines 149-155: construction of the model. -/
def create_model (s : Solver) : Solver :=
  if s.hyper_param_.score_func = "linear" then
    { s with model_ := some (Model.fresh s.hyper_param_ false) }
  else
    { s with model_ := some (Model.fresh s.hyper_param_ true) }

/-- Source lines 159-160: `updater_ = create_updater(); updater_->Initialize(hyper_param_);`. -/
def init_updater (env : Env) (s : Solver) : Result Solver :=
  let cu := create_updater env s
  let s1 := { cu.2 with updater_ := cu.1 }
  match cu.1 with
  | none => .crashed s1
  | some u => .done { s1 with updater_ := some { u with hyper_param := some s1.hyper_param_ } }

/-- Source lines 164-165 and 201-202: `score_ = create_score(); score_->Initialize(hyper_param_);`. -/
def init_score (env : Env) (s : Solver) : Result Solver :=
  let cs := create_score env s
  let s1 := { cs.2 with score_ := cs.1 }
  match cs.1 with
  | none => .crashed s1
  | some sc => .done { s1 with score_ := some { sc with hyper_param := some s1.hyper_param_ } }

/-- Source lines 169-170 and 206-207: `loss_ = create_loss(); loss_->Initialize(score_);`. -/
def init_loss (env : Env) (s : Solver) : Result Solver :=
  let cl := create_loss env s
  let s1 := { cl.2 with loss_ := cl.1 }
  match cl.1 with
  | none => .crashed s1
  | some l => .done { s1 with loss_ := some { l with score := s1.score_ } }

/-- Source lines 78-113: step 3 up to the creation of the readers; the result
carries the local variable `num_reader`. -/
def train_setup (env : Env) (s : Solver) : Result (Solver × Int) :=
  (train_split s).bind fun s1 =>
  (train_file_list s1).bind fun nf =>
  (train_create_readers env s1 nf.1 nf.2).bind fun s2 => .done (s2, nf.1)

/-- Source lines 73-171: the block `if (hyper_param_.is_train) { ... }`. -/
def train_path (env : Env) (s : Solver) : Result Solver :=
  (train_setup env s).bind fun su =>
  (prescan_loop su.2.toNat 0 su.1 0 0).bind fun p =>
  (init_updater env (create_model (init_num_param env.index_bits p.1 p.2.1 p.2.2))).bind
    fun s4 =>
  (init_score env s4).bind (init_loss env)

/-! ### Inference path -/

/-- Source lines 188-197: loading the model and overriding the configuration
with the values of its accessors. -/
def load_model (env : Env) (s : Solver) : Solver :=
  let m := Model.loaded s.hyper_param_.model_checkpoint_file
             (env.checkpoint s.hyper_param_.model_checkpoint_file)
  let hp1 := { s.hyper_param_ with score_func := m.GetScoreFunction }
  let hp2 := { hp1 with num_feature := m.GetNumFeature }
  let hp3 := if hp2.score_func = "fm" ∨ hp2.score_func = "ffm" then
               { hp2 with num_K := m.GetNumK } else hp2
  let hp4 := if hp3.score_func = "ffm" then { hp3 with num_field := m.GetNumField } else hp3
  { s with model_ := some m, hyper_param_ := hp4 }

/-- Source lines 173-208: the block `if (!hyper_param_.is_train) { ... }`. -/
def inference_path (env : Env) (s : Solver) : Result Solver :=
  let cp := create_parser_ env s
  let s1 := { cp.2 with parser_ := cp.1 }
  let cr := create_reader env s1
  let s2 := { cr.2 with reader_ := vector_resize cr.2.reader_ 1 cr.1 }
  if s2.hyper_param_.inference_file = "" then .aborted s2
  else
    match s2.reader_[0]? with
    | none => .crashed s2
    | some none => .crashed s2
    | some (some r) =>
      let r1 := r.Initialize s2.hyper_param_.inference_file s2.hyper_param_.batch_size s2.parser_
                  (env.content s2.hyper_param_.inference_file s2.hyper_param_.batch_size)
      let s3 := { s2 with reader_ := s2.reader_.set 0 (some r1) }
      (init_score env (load_model env s3)).bind (init_loss env)

/-! ### `Initialize` -/

/-- Embedding of `Solver::Initialize` (source lines 59-209), run on a newly
constructed solver.  `args` stands for `argc`/`argv`; a failed argument check
ends the process with `exit(0)`. -/
def Initialize (env : Env) (args : List String) : Result Solver :=
  match env.Check args with
  | none => .exited Solver.blank
  | some hp =>
    let s := { Solver.blank with hyper_param_ := hp }
    (if s.hyper_param_.is_train then train_path env s else .done s).bind fun s1 =>
      if s1.hyper_param_.is_train then .done s1 else inference_path env s1

/-! ## Reference notions used in the statements -/

/-- All entries of a list of rows, in order. -/
def all_entries (rows : List SparseRow) : List Node := rows.flatMap (fun row => row.entries)

/-- All rows a reader holds: the rows of all its batches, in order. -/
def Reader.rows (r : Reader) : List SparseRow := r.batches.flatMap (fun m => m.row)

/-- All rows of a list of readers: the concatenation of their contents. -/
def all_rows (readers : List Reader) : List SparseRow := readers.flatMap Reader.rows

/-- The number `M` is the true maximum of the values `vals` (indices are
unsigned, so the maximum of no value at all is `0`): every value is at most `M`,
and `M` is one of the values unless it is `0`. -/
def is_true_max (vals : List Nat) (M : Nat) : Prop :=
  (∀ v ∈ vals, v ≤ M) ∧ (M = 0 ∨ M ∈ vals)

instance (vals : List Nat) (M : Nat) : Decidable (is_true_max vals M) :=
  inferInstanceAs (Decidable ((∀ v ∈ vals, v ≤ M) ∧ (M = 0 ∨ M ∈ vals)))

/-- Maximum of a list of indices, computed directly. -/
def list_max (vals : List Nat) : Nat := vals.foldr max 0

/-- What `find_max_feature` computes on a batch whose `num_samples` is its
number of rows. -/
def batch_feature (m : DMatrix) : index_t :=
  m.row.foldl (fun acc row => row.entries.foldl feature_step acc) 0

/-- What `find_max_field` computes on a batch whose `num_samples` is its number
of rows. -/
def batch_field (m : DMatrix) : index_t :=
  m.row.foldl (fun acc row => row.entries.foldl field_step acc) 0

/-- Effect of one iteration of the `do` body on `(max_feat, max_field)` when the
reader handed out the batch `m`. -/
def scan_pure (score_func : String) (acc : index_t × index_t) (m : DMatrix) :
    index_t × index_t :=
  (if batch_feature m > acc.1 then batch_feature m else acc.1,
   if score_func = "ffm" then (if batch_field m > acc.2 then batch_field m else acc.2)
   else acc.2)

/-- The batches a reader hands out before it reports the end of the stream:
those from its cursor on, up to the first batch of size `0`. -/
def Reader.pass (r : Reader) : List DMatrix :=
  (r.batches.drop r.cursor).takeWhile (fun m => m.row.length != 0)

/-- Effect of the whole pre-scan of a list of readers on
`(max_feat, max_field)`. -/
def scan_all (score_func : String) (readers : List Reader) (acc : index_t × index_t) :
    index_t × index_t :=
  readers.foldl (fun a r => r.pass.foldl (scan_pure score_func) a) acc

/-- Reference definition of the list of files of the train path: with
cross-validation the fold files `"<train_set_file>_<i>"` for `i` in
`[0, num_folds)`, in that order; otherwise the training file, followed by the
test file iff there is one. -/
def reference_file_list (hp : HyperParam) : List String :=
  if hp.cross_validation then
    (List.range hp.num_folds.toNat).map (fun i => hp.train_set_file ++ "_" ++ toString i)
  else if hp.test_set_file = "" then [hp.train_set_file]
  else [hp.train_set_file, hp.test_set_file]

/-- The key under which `create_reader` looks the reader up. -/
def reader_key (hp : HyperParam) : String := if hp.on_disk then "disk" else "memory"

/-- Closed-form table of the number of parameters (specification §4.2). -/
def num_param_table (family : String) (max_feature max_field K : Nat) : Option Nat :=
  if family = "linear" then some (max_feature + 1)
  else if family = "fm" then some (max_feature + 1 + max_feature * K)
  else if family = "ffm" then some (max_feature + 1 + max_feature * max_field * K)
  else none

/-- The solver carried by a result, whatever the way the run ended. -/
def Result.solver : Result Solver → Solver
  | .done s => s
  | .exited s => s
  | .aborted s => s
  | .crashed s => s
  | .no_fuel s => s

/-- The run ended by dereferencing a null pointer (or by an index out of
range). -/
def Result.is_crashed {α : Type} : Result α → Bool
  | .crashed _ => true
  | _ => false

/-- The run ended by a failed `CHECK_*`. -/
def Result.is_aborted {α : Type} : Result α → Bool
  | .aborted _ => true
  | _ => false

/-- The readers the train path creates, in closed form: one reader per file of
the reference list, each bound to its file. -/
def setup_readers (env : Env) (hp : HyperParam) (parser : Option Parser) (r0 : Reader) :
    List Reader :=
  (reference_file_list hp).map
    (fun f => r0.Initialize f hp.batch_size parser (env.content f hp.batch_size))

/-- The solver after the creation of the readers, in closed form (`r0` is the
object the registry returns for the reader key). -/
def setup_state (env : Env) (s : Solver) (r0 : Reader) : Solver :=
  { s with
      parser_ := env.CREATE_PARSER s.hyper_param_.file_format,
      reader_ := (setup_readers env s.hyper_param_
                    (env.CREATE_PARSER s.hyper_param_.file_format) r0).map some,
      split_calls :=
        if s.hyper_param_.cross_validation then
          s.split_calls ++ [(s.hyper_param_.train_set_file, s.hyper_param_.num_folds)]
        else s.split_calls,
      log := if (env.CREATE_PARSER s.hyper_param_.file_format).isSome then s.log
             else s.log ++ ["Cannot create parser: " ++ s.hyper_param_.file_format] }

/-- The solver at the end of the train path, in closed form (`r0`, `u`, `sc`,
`l` are the objects the registry returns for the reader, updater, score and
loss keys). -/
def train_final (env : Env) (s : Solver) (r0 : Reader) (u : Updater) (sc : Score)
    (l : Loss) : Solver :=
  let s2 := setup_state env s r0
  let mx := scan_all s.hyper_param_.score_func
              (setup_readers env s.hyper_param_ (env.CREATE_PARSER s.hyper_param_.file_format) r0)
              (0, 0)
  let s3 := create_model (init_num_param env.index_bits
              { s2 with hyper_param_ :=
                  { s2.hyper_param_ with num_feature := mx.1, num_field := mx.2 } } mx.1 mx.2)
  let s4 := { s3 with updater_ := some { u with hyper_param := some s3.hyper_param_ } }
  let s5 := { s4 with score_ := some { sc with hyper_param := some s4.hyper_param_ } }
  { s5 with loss_ := some { l with score := s5.score_ } }

/-- The solver at the end of the inference path, in closed form (`r0`, `sc`,
`l` are the objects the registry returns for the reader, score and loss
keys). -/
def inference_final (env : Env) (s : Solver) (r0 : Reader) (sc : Score) (l : Loss) : Solver :=
  let parser := env.CREATE_PARSER s.hyper_param_.file_format
  let r1 := r0.Initialize s.hyper_param_.inference_file s.hyper_param_.batch_size parser
              (env.content s.hyper_param_.inference_file s.hyper_param_.batch_size)
  let s3 := load_model env
    { s with parser_ := parser, reader_ := [some r1],
             log := if parser.isSome then s.log
                    else s.log ++ ["Cannot create parser: " ++ s.hyper_param_.file_format] }
  let s4 := { s3 with score_ := some { sc with hyper_param := some s3.hyper_param_ } }
  { s4 with loss_ := some { l with score := s4.score_ } }

/-- The conditions under which the train path runs to its end: the arguments
pass the check, the training file is named, the fold count is positive when
cross-validation is on, and the registry knows the reader, updater, score and
loss keys. -/
def train_ready (env : Env) (args : List String) (hp : HyperParam) : Prop :=
  env.Check args = some hp ∧ hp.is_train = true ∧ hp.train_set_file ≠ "" ∧
  (hp.cross_validation = true → 0 < hp.num_folds) ∧
  (env.CREATE_READER (reader_key hp)).isSome = true ∧
  (env.CREATE_UPDATER hp.updater_type).isSome = true ∧
  (env.CREATE_SCORE hp.score_func).isSome = true ∧
  (env.CREATE_LOSS hp.loss_func).isSome = true

/-- The conditions under which the inference path runs to its end: the
arguments pass the check, the inference file is named, and the registry knows
the reader key, the score key stored in the checkpoint and the loss key. -/
def inference_ready (env : Env) (args : List String) (hp : HyperParam) : Prop :=
  env.Check args = some hp ∧ hp.is_train = false ∧ hp.inference_file ≠ "" ∧
  (env.CREATE_READER (reader_key hp)).isSome = true ∧
  (env.CREATE_SCORE (env.checkpoint hp.model_checkpoint_file).score_func).isSome = true ∧
  (env.CREATE_LOSS hp.loss_func).isSome = true

/-! ## A concrete environment

A registry with the usual keys, two small data files and one checkpoint; used
to run the embedding on concrete inputs. -/

/-- Registry of parsers: `"libsvm"` and `"libffm"`. -/
def demo_parsers (key : String) : Option Parser :=
  if key = "libsvm" ∨ key = "libffm" then some { kind := key } else none

/-- Registry of readers: `"memory"` and `"disk"`. -/
def demo_readers (key : String) : Option Reader :=
  if key = "memory" ∨ key = "disk" then
    some { kind := key, filename := "", batch_size := 0, parser := none, batches := [], cursor := 0 }
  else none

/-- Registry of updaters: `"sgd"`. -/
def demo_updaters (key : String) : Option Updater :=
  if key = "sgd" then some { kind := key, hyper_param := none } else none

/-- Registry of score functions: `"linear"`, `"fm"`, `"ffm"`. -/
def demo_scores (key : String) : Option Score :=
  if key = "linear" ∨ key = "fm" ∨ key = "ffm" then some { kind := key, hyper_param := none }
  else none

/-- Registry of loss functions: `"squared"` and `"cross-entropy"`. -/
def demo_losses (key : String) : Option Loss :=
  if key = "squared" ∨ key = "cross-entropy" then some { kind := key, score := none } else none

/-- Rows of the demo data: `(idx, X, field)` entries. -/
def demo_rows : List SparseRow :=
  [ { entries := [⟨2, 1, 1⟩, ⟨7, 1, 3⟩] },
    { entries := [⟨4, 1, 2⟩] },
    { entries := [⟨1, 1, 1⟩, ⟨3, 1, 2⟩, ⟨6, 1, 3⟩] } ]

/-- Cutting a list of rows into batches of `n + 1` rows; the first argument
bounds the number of batches. -/
def demo_chunks : Nat → Nat → List SparseRow → List DMatrix
  | 0, _, _ => []
  | _, _, [] => []
  | fuel + 1, n, r :: rs =>
    { row := (r :: rs).take (n + 1) } :: demo_chunks fuel n ((r :: rs).drop (n + 1))

/-- Content of the demo files: every file holds `demo_rows`, cut into batches
of `batch_size` rows (one row for a non-positive `batch_size`). -/
def demo_content (_ : String) (batch_size : Int) : List DMatrix :=
  demo_chunks demo_rows.length (batch_size.toNat - 1) demo_rows

/-- Checkpoint of the demo environment: an `ffm` model. -/
def demo_checkpoint (_ : String) : ModelMeta :=
  { score_func := "ffm", num_feature := 7, num_K := 8, num_field := 3 }

/-- A configuration accepted by the demo checker; the derived fields start at
the given (arbitrary) values. -/
def demo_param (is_train : Bool) (score_func : String) : HyperParam :=
  { is_train := is_train, train_set_file := "train.txt", test_set_file := "test.txt",
    inference_file := "infer.txt", model_checkpoint_file := "model.bin",
    cross_validation := false, num_folds := 0, batch_size := 2, score_func := score_func,
    loss_func := "squared", updater_type := "sgd", file_format := "libffm",
    on_disk := false, num_K := 4, num_feature := 99, num_field := 98, num_param := 97 }

/-- The demo environment: the checker returns the given configuration. -/
def demo_env (hp : Option HyperParam) : Env :=
  { index_bits := 32, Check := fun _ => hp, CREATE_PARSER := demo_parsers, CREATE_READER := demo_readers,
    CREATE_UPDATER := demo_updaters, CREATE_SCORE := demo_scores,
    CREATE_LOSS := demo_losses, content := demo_content, checkpoint := demo_checkpoint }

/-- A reader over the demo rows, cut into batches of `n + 1` rows. -/
def demo_reader (n : Nat) : Reader :=
  { kind := "memory", filename := "train.txt", batch_size := n + 1, parser := none,
    batches := demo_chunks demo_rows.length n demo_rows, cursor := 0 }

/-- A solver in front of the pre-scan with the given readers. -/
def demo_solver (score_func : String) (readers : List Reader) : Solver :=
  { Solver.blank with hyper_param_ := demo_param true score_func, reader_ := readers.map some }

/-- The demo environment in inference mode with a checkpoint whose family the
registry does not know. -/
def demo_env_unknown_family : Env :=
  { demo_env (some (demo_param false "linear")) with
      checkpoint := fun _ => { score_func := "xyz", num_feature := 7, num_K := 4, num_field := 3 } }

/-- A train configuration that asks for cross-validation with `num_folds = 0`. -/
def demo_cv_no_folds : HyperParam :=
  { demo_param true "fm" with cross_validation := true, num_folds := 0 }

/-- One batch with one row whose single entry has feature index `65536`,
value `65536` and field id `65536`. -/
def demo_wide_content (_ : String) (_ : Int) : List DMatrix :=
  [{ row := [{ entries := [⟨65536, 65536, 65536⟩] }] }]

/-- An `ffm` train configuration with `num_K = 1`. -/
def demo_wide_param : HyperParam := { demo_param true "ffm" with num_K := 1 }

/-- The demo environment (32-bit `index_t`) over the files of
`demo_wide_content`. -/
def demo_env_wide : Env :=
  { demo_env (some demo_wide_param) with content := demo_wide_content }

/-! ## Lemmas -/

/-- The outer loop of `find_max_feature`/`find_max_field` on a non-null matrix,
started at row `i` with as many iterations left as there are rows, folds the
inner loop over the remaining rows and does not fault. -/
theorem find_max_from_drop (step : index_t → Node → index_t) (m : DMatrix) :
    ∀ (n i : Nat) (res : index_t), i + n = m.row.length →
      find_max_from step (some m) n i res
        = .ok ((m.row.drop i).foldl (fun acc row => row.entries.foldl step acc) res) := by
  intro n
  induction n with
  | zero =>
    intro i res h
    have : m.row.drop i = [] := List.drop_eq_nil_of_le (by omega)
    simp [find_max_from, this]
  | succ n ih =>
    intro i res h
    have hi : i < m.row.length := by omega
    rw [List.drop_eq_getElem_cons hi]
    simp only [find_max_from, List.getElem?_eq_getElem hi, List.foldl_cons]
    exact ih (i + 1) _ (by omega)

theorem find_max_feature_batch (m : DMatrix) :
    find_max_feature (some m) m.row.length = .ok (batch_feature m) := by
  unfold find_max_feature batch_feature
  rw [find_max_from_drop feature_step m m.row.length 0 0 (by omega)]
  simp

theorem find_max_field_batch (m : DMatrix) :
    find_max_field (some m) m.row.length = .ok (batch_field m) := by
  unfold find_max_field batch_field
  rw [find_max_from_drop field_step m m.row.length 0 0 (by omega)]
  simp

theorem scan_body_batch (sf : String) (m : DMatrix) (mf mfd : index_t) :
    scan_body sf (some m) m.row.length mf mfd = .ok (scan_pure sf (mf, mfd) m) := by
  unfold scan_body scan_pure
  rw [find_max_feature_batch, find_max_field_batch]
  by_cases h : sf = "ffm" <;> simp [h]

/-- With `num_samples = 0` the `do` body changes nothing, whatever the matrix
pointer is. -/
theorem scan_body_zero (sf : String) (matrix : Option DMatrix) (mf mfd : index_t) :
    scan_body sf matrix 0 mf mfd = .ok (mf, mfd) := by
  unfold scan_body find_max_feature find_max_field
  by_cases h : sf = "ffm" <;> simp [h, find_max_from]

theorem drop_of_getElem? {α : Type} (l : List α) (i : Nat) (a : α) (h : l[i]? = some a) :
    l.drop i = a :: l.drop (i + 1) := by
  have hi : i < l.length := by
    by_contra hc
    rw [List.getElem?_eq_none (by omega)] at h
    cases h
  rw [List.getElem?_eq_getElem hi] at h
  rw [List.drop_eq_getElem_cons hi]
  cases h
  rfl

/-- The `do ... while` loop on one reader ends normally when given at least one
unit of fuel more than the number of batches left; it folds `scan_pure` over the
batches the reader hands out, and the reader it returns rewinds to the same
state as the original one. -/
theorem scan_reader_spec (sf : String) :
    ∀ (fuel : Nat) (r : Reader) (mf mfd : index_t), r.batches.length - r.cursor < fuel →
      ∃ r1, scan_reader sf fuel r mf mfd = .ok (r1, r.pass.foldl (scan_pure sf) (mf, mfd))
        ∧ r1.Reset = r.Reset := by
  intro fuel
  induction fuel with
  | zero => intro r mf mfd h; omega
  | succ fuel ih =>
    intro r mf mfd h
    cases hget : r.batches[r.cursor]? with
    | none =>
      refine ⟨r, ?_, rfl⟩
      have hlen : r.batches.length ≤ r.cursor := by
        by_contra hc
        rw [List.getElem?_eq_getElem (by omega)] at hget
        cases hget
      have hdrop : r.batches.drop r.cursor = [] := List.drop_eq_nil_of_le hlen
      simp [scan_reader, Reader.Samples, hget, scan_body_zero, Reader.pass, hdrop]
    | some m =>
      have hdrop := drop_of_getElem? r.batches r.cursor m hget
      have hlt : r.cursor < r.batches.length := by
        by_contra hc
        rw [List.getElem?_eq_none (by omega)] at hget
        cases hget
      by_cases hz : m.row.length = 0
      · refine ⟨{ r with cursor := r.cursor + 1 }, ?_, rfl⟩
        have hb := scan_body_zero sf (some m) mf mfd
        simp [scan_reader, Reader.Samples, hget, hz, hb, Reader.pass, hdrop]
      · obtain ⟨r1, h1, h2⟩ := ih { r with cursor := r.cursor + 1 }
          (scan_pure sf (mf, mfd) m).1 (scan_pure sf (mf, mfd) m).2 (by simp; omega)
        refine ⟨r1, ?_, ?_⟩
        · simp only [scan_reader, Reader.Samples, hget, scan_body_batch, hz]
          rw [if_pos hz, h1]
          simp [Reader.pass, hdrop, hz]
        · rw [h2]; rfl

/-- State of the solver after the pre-scan of the readers `rs` stored behind
the prefix `pre` of `reader_`. -/
theorem prescan_loop_spec :
    ∀ (rs : List Reader) (pre : List (Option Reader)) (s : Solver) (mf mfd : index_t),
      s.reader_ = pre ++ rs.map some →
      prescan_loop rs.length pre.length s mf mfd
        = .done ({ s with
                    reader_ := pre ++ rs.map (fun r => some r.Reset),
                    hyper_param_ :=
                      if rs = [] then s.hyper_param_
                      else { s.hyper_param_ with
                              num_feature := (scan_all s.hyper_param_.score_func rs (mf, mfd)).1,
                              num_field := (scan_all s.hyper_param_.score_func rs (mf, mfd)).2 } },
                 scan_all s.hyper_param_.score_func rs (mf, mfd)) := by
  intro rs
  induction rs with
  | nil =>
    intro pre s mf mfd h
    have hp : pre = s.reader_ := by simp [h]
    subst hp
    simp [prescan_loop, scan_all]
  | cons r rest ih =>
    intro pre s mf mfd h
    have hget : s.reader_[pre.length]? = some (some r) := by
      rw [h, List.getElem?_append_right (le_refl _)]
      simp
    obtain ⟨r1, h1, h2⟩ := scan_reader_spec s.hyper_param_.score_func (r.batches.length + 1) r mf mfd
      (by omega)
    have hset : s.reader_.set pre.length (some r1.Reset)
        = (pre ++ [some r.Reset]) ++ rest.map some := by
      rw [h, List.set_append]
      simp [h2]
    simp only [List.length_cons, prescan_loop, hget, h1]
    have := ih (pre ++ [some r.Reset])
      { s with hyper_param_ := { s.hyper_param_ with
                  num_feature := (r.pass.foldl (scan_pure s.hyper_param_.score_func) (mf, mfd)).1,
                  num_field := (r.pass.foldl (scan_pure s.hyper_param_.score_func) (mf, mfd)).2 },
               reader_ := s.reader_.set pre.length (some r1.Reset) }
      (r.pass.foldl (scan_pure s.hyper_param_.score_func) (mf, mfd)).1
      (r.pass.foldl (scan_pure s.hyper_param_.score_func) (mf, mfd)).2 hset
    simp only [List.length_append, List.length_singleton] at this
    rw [this]
    simp only [scan_all, List.foldl_cons, Prod.mk.eta]
    by_cases hr : rest = []
    · subst hr; simp
    · simp [hr]

/-- The fold-file loop appends the names for `i, i+1, ..., i+n-1`. -/
theorem push_fold_files_eq (base : String) :
    ∀ (n i : Nat) (fl : List String),
      push_fold_files base n i fl = fl ++ (List.range' i n).map (StringPrintf base) := by
  intro n
  induction n with
  | zero => intro i fl; simp [push_fold_files]
  | succ n ih =>
    intro i fl
    simp [push_fold_files, ih, List.range'_succ]

/-- The reader loop, started behind the already created readers `pre`, creates
one initialised reader per remaining file. -/
theorem create_readers_loop_spec (env : Env) (file_list : List String) (r0 : Reader) :
    ∀ (todo : List String) (pre : List (Option Reader)) (s : Solver),
      env.CREATE_READER (reader_key s.hyper_param_) = some r0 →
      (∃ prefl, file_list = prefl ++ todo ∧ prefl.length = pre.length) →
      s.reader_ = pre ++ List.replicate todo.length none →
      create_readers_loop env file_list todo.length pre.length s
        = .done { s with reader_ := pre ++ todo.map (fun f =>
            some (r0.Initialize f s.hyper_param_.batch_size s.parser_
                    (env.content f s.hyper_param_.batch_size))) } := by
  intro todo
  induction todo with
  | nil =>
    intro pre s _ _ hrd
    have hp : pre = s.reader_ := by simp [hrd]
    subst hp
    simp [create_readers_loop]
  | cons f rest ih =>
    intro pre s hr0 hfl hrd
    obtain ⟨prefl, hfl1, hfl2⟩ := hfl
    have hcr : create_reader env s = (some r0, s) := by
      have := hr0
      unfold reader_key at this
      simp only [create_reader, this]
    have hget : file_list[pre.length]? = some f := by
      rw [hfl1, ← hfl2, List.getElem?_append_right (le_refl _)]
      simp
    have hset : ∀ x y : Option Reader, ((s.reader_.set pre.length x).set pre.length y)
        = (pre ++ [y]) ++ List.replicate rest.length none := by
      intro x y
      rw [hrd, List.set_append]
      simp [List.replicate_succ]
    simp only [List.length_cons, create_readers_loop, hcr, hget]
    have := ih (pre ++ [some (r0.Initialize f s.hyper_param_.batch_size s.parser_
                    (env.content f s.hyper_param_.batch_size))])
      { s with reader_ := (s.reader_.set pre.length (some r0)).set pre.length
                (some (r0.Initialize f s.hyper_param_.batch_size s.parser_
                    (env.content f s.hyper_param_.batch_size))) }
      hr0 ⟨prefl ++ [f], by simp [hfl1], by simp [hfl2]⟩ (hset _ _)
    simp only [List.length_append, List.length_singleton] at this
    rw [this]
    simp


theorem train_file_list_cv (s : Solver) (h : s.hyper_param_.cross_validation = true) :
    train_file_list s = .done (s.hyper_param_.num_folds, reference_file_list s.hyper_param_) := by
  unfold train_file_list reference_file_list
  simp only [h, if_true, push_fold_files_eq, List.nil_append]
  rw [← List.range_eq_range']
  simp [StringPrintf]

theorem Result.done_bind {α β : Type} (a : α) (f : α → Result β) :
    (Result.done a).bind f = f a := rfl

theorem setup_readers_length (env : Env) (hp : HyperParam) (p : Option Parser) (r0 : Reader) :
    (setup_readers env hp p r0).length = (reference_file_list hp).length := by
  simp [setup_readers]

theorem create_parser_eq (env : Env) (s : Solver) :
    create_parser_ env s
      = (env.CREATE_PARSER s.hyper_param_.file_format,
          { s with log := if (env.CREATE_PARSER s.hyper_param_.file_format).isSome then s.log
                          else s.log ++ ["Cannot create parser: " ++ s.hyper_param_.file_format] }) := by
  unfold create_parser_
  cases env.CREATE_PARSER s.hyper_param_.file_format <;> simp [Solver.log_error]

theorem train_create_readers_spec (env : Env) (r0 : Reader) (s1 : Solver) (fl : List String)
    (hr0 : env.CREATE_READER (reader_key s1.hyper_param_) = some r0)
    (hrd1 : s1.reader_ = []) :
    train_create_readers env s1 (fl.length : Int) fl
      = .done { s1 with
          parser_ := env.CREATE_PARSER s1.hyper_param_.file_format,
          reader_ := fl.map (fun f => some (r0.Initialize f s1.hyper_param_.batch_size
            (env.CREATE_PARSER s1.hyper_param_.file_format)
            (env.content f s1.hyper_param_.batch_size))),
          log := if (env.CREATE_PARSER s1.hyper_param_.file_format).isSome then s1.log
                 else s1.log ++ ["Cannot create parser: " ++ s1.hyper_param_.file_format] } := by
  unfold train_create_readers
  simp only [Int.toNat_ofNat, create_parser_eq]
  have := create_readers_loop_spec env fl r0 fl []
    { s1 with
        parser_ := env.CREATE_PARSER s1.hyper_param_.file_format,
        reader_ := vector_resize s1.reader_ fl.length none,
        log := if (env.CREATE_PARSER s1.hyper_param_.file_format).isSome then s1.log
               else s1.log ++ ["Cannot create parser: " ++ s1.hyper_param_.file_format] }
    hr0 ⟨[], by simp, rfl⟩ (by simp [vector_resize, hrd1])
  simp only [List.length_nil] at this
  rw [this]
  simp

/-- Closed form of the solver and of `num_reader` after the creation of the
readers. -/
theorem train_setup_spec (env : Env) (s : Solver) (r0 : Reader)
    (hrd : s.reader_ = [])
    (hfile : s.hyper_param_.train_set_file ≠ "")
    (hcv : s.hyper_param_.cross_validation = true → 0 < s.hyper_param_.num_folds)
    (hr0 : env.CREATE_READER (reader_key s.hyper_param_) = some r0) :
    train_setup env s
      = .done (setup_state env s r0, ((reference_file_list s.hyper_param_).length : Int)) := by
  unfold train_setup
  by_cases hc : s.hyper_param_.cross_validation = true
  · have hpos := hcv hc
    have hsplit : train_split s = .done { s with split_calls := s.split_calls ++
        [(s.hyper_param_.train_set_file, s.hyper_param_.num_folds)] } := by
      simp [train_split, hc, hfile, hpos]
    have hlen : ((reference_file_list s.hyper_param_).length : Int) = s.hyper_param_.num_folds := by
      simp [reference_file_list, hc]
      omega
    rw [hsplit, Result.done_bind,
      train_file_list_cv { s with split_calls := s.split_calls ++
        [(s.hyper_param_.train_set_file, s.hyper_param_.num_folds)] } hc, Result.done_bind]
    simp only []
    have h1 := train_create_readers_spec env r0 { s with split_calls := s.split_calls ++
        [(s.hyper_param_.train_set_file, s.hyper_param_.num_folds)] }
        (reference_file_list s.hyper_param_) hr0 hrd
    rw [hlen] at h1
    rw [h1, Result.done_bind]
    simp [setup_state, hc, setup_readers, hlen]
  · have hsplit : train_split s = .done s := by simp [train_split, hc]
    have hfl : train_file_list s = .done (((reference_file_list s.hyper_param_).length : Int),
        reference_file_list s.hyper_param_) := by
      by_cases ht : s.hyper_param_.test_set_file = "" <;>
        simp [train_file_list, reference_file_list, hc, hfile, ht]
    rw [hsplit, Result.done_bind, hfl, Result.done_bind]
    simp only []
    rw [train_create_readers_spec env r0 s _ hr0 hrd, Result.done_bind]
    simp [setup_state, hc, setup_readers]

theorem reference_file_list_ne_nil (hp : HyperParam)
    (hcv : hp.cross_validation = true → 0 < hp.num_folds) :
    reference_file_list hp ≠ [] := by
  unfold reference_file_list
  by_cases hc : hp.cross_validation = true
  · have := hcv hc
    have h2 : hp.num_folds.toNat ≠ 0 := by omega
    simp [hc, h2]
  · by_cases ht : hp.test_set_file = "" <;> simp [hc, ht]

theorem init_num_param_hp (bits : Nat) (s : Solver) (a b : index_t) :
    (init_num_param bits s a b).hyper_param_
      = { s.hyper_param_ with
            num_param := (init_num_param bits s a b).hyper_param_.num_param } := by
  unfold init_num_param
  split_ifs <;> rfl

theorem create_model_hp (s : Solver) : (create_model s).hyper_param_ = s.hyper_param_ := by
  unfold create_model
  split_ifs <;> rfl

theorem init_updater_spec (env : Env) (s : Solver) (u : Updater)
    (hu : env.CREATE_UPDATER s.hyper_param_.updater_type = some u) :
    init_updater env s
      = .done { s with updater_ := some { u with hyper_param := some s.hyper_param_ } } := by
  simp [init_updater, create_updater, hu]

theorem init_score_spec (env : Env) (s : Solver) (sc : Score)
    (hsc : env.CREATE_SCORE s.hyper_param_.score_func = some sc) :
    init_score env s
      = .done { s with score_ := some { sc with hyper_param := some s.hyper_param_ } } := by
  simp [init_score, create_score, hsc]

theorem init_loss_spec (env : Env) (s : Solver) (l : Loss)
    (hl : env.CREATE_LOSS s.hyper_param_.loss_func = some l) :
    init_loss env s = .done { s with loss_ := some { l with score := s.score_ } } := by
  simp [init_loss, create_loss, hl]

/-- The readers are created and the pre-scan over them ends normally, with the
maxima given by `scan_all`. -/
theorem train_prescan_spec (env : Env) (s : Solver) (r0 : Reader)
    (hrd : s.reader_ = [])
    (hfile : s.hyper_param_.train_set_file ≠ "")
    (hcv : s.hyper_param_.cross_validation = true → 0 < s.hyper_param_.num_folds)
    (hr0 : env.CREATE_READER (reader_key s.hyper_param_) = some r0) :
    ∃ su sp, train_setup env s = .done su ∧
      prescan_loop su.2.toNat 0 su.1 0 0
        = .done (sp,
            (scan_all s.hyper_param_.score_func (setup_readers env s.hyper_param_
              (env.CREATE_PARSER s.hyper_param_.file_format) r0) (0, 0)).1,
            (scan_all s.hyper_param_.score_func (setup_readers env s.hyper_param_
              (env.CREATE_PARSER s.hyper_param_.file_format) r0) (0, 0)).2) := by
  have hps := prescan_loop_spec
    (setup_readers env s.hyper_param_ (env.CREATE_PARSER s.hyper_param_.file_format) r0) []
    (setup_state env s r0) 0 0 (by simp [setup_state])
  rw [setup_readers_length] at hps
  simp only [List.length_nil] at hps
  exact ⟨_, _, train_setup_spec env s r0 hrd hfile hcv hr0, hps⟩

/-- Closed form of the train path: it ends normally in `train_final`. -/
theorem train_path_spec (env : Env) (s : Solver) (r0 : Reader) (u : Updater) (sc : Score)
    (l : Loss)
    (hrd : s.reader_ = [])
    (hfile : s.hyper_param_.train_set_file ≠ "")
    (hcv : s.hyper_param_.cross_validation = true → 0 < s.hyper_param_.num_folds)
    (hr0 : env.CREATE_READER (reader_key s.hyper_param_) = some r0)
    (hu : env.CREATE_UPDATER s.hyper_param_.updater_type = some u)
    (hsc : env.CREATE_SCORE s.hyper_param_.score_func = some sc)
    (hl : env.CREATE_LOSS s.hyper_param_.loss_func = some l) :
    train_path env s = .done (train_final env s r0 u sc l) := by
  unfold train_path
  rw [train_setup_spec env s r0 hrd hfile hcv hr0, Result.done_bind]
  simp only [Int.toNat_ofNat]
  have hps := prescan_loop_spec
    (setup_readers env s.hyper_param_ (env.CREATE_PARSER s.hyper_param_.file_format) r0) []
    (setup_state env s r0) 0 0 (by simp [setup_state])
  rw [setup_readers_length] at hps
  simp only [List.length_nil] at hps
  rw [hps, Result.done_bind]
  have hne : setup_readers env s.hyper_param_ (env.CREATE_PARSER s.hyper_param_.file_format) r0
      ≠ [] := by
    intro h
    have := setup_readers_length env s.hyper_param_
      (env.CREATE_PARSER s.hyper_param_.file_format) r0
    rw [h] at this
    exact reference_file_list_ne_nil s.hyper_param_ hcv (List.length_eq_zero.mp this.symm)
  simp only [if_neg hne]
  have hreset : List.map (fun r => some r.Reset)
      (setup_readers env s.hyper_param_ (env.CREATE_PARSER s.hyper_param_.file_format) r0)
      = List.map some
      (setup_readers env s.hyper_param_ (env.CREATE_PARSER s.hyper_param_.file_format) r0) := by
    simp [setup_readers, Reader.Reset, Reader.Initialize]
  rw [hreset]
  rw [init_updater_spec env _ u (by rw [create_model_hp, init_num_param_hp]; exact hu),
    Result.done_bind,
    init_score_spec env _ sc (by simp only [create_model_hp]; rw [init_num_param_hp]; exact hsc),
    Result.done_bind,
    init_loss_spec env _ l (by simp only [create_model_hp]; rw [init_num_param_hp]; exact hl)]
  rfl

theorem train_final_hp (env : Env) (s : Solver) (r0 : Reader) (u : Updater) (sc : Score)
    (l : Loss) :
    (train_final env s r0 u sc l).hyper_param_
      = { s.hyper_param_ with
            num_feature := (scan_all s.hyper_param_.score_func (setup_readers env s.hyper_param_
              (env.CREATE_PARSER s.hyper_param_.file_format) r0) (0, 0)).1,
            num_field := (scan_all s.hyper_param_.score_func (setup_readers env s.hyper_param_
              (env.CREATE_PARSER s.hyper_param_.file_format) r0) (0, 0)).2,
            num_param := (train_final env s r0 u sc l).hyper_param_.num_param } := by
  simp only [train_final, create_model_hp]
  rw [init_num_param_hp]
  rfl

/-- `Initialize` in train mode, under `train_ready`, ends normally in
`train_final`. -/
theorem Initialize_train (env : Env) (args : List String) (hp : HyperParam)
    (h : train_ready env args hp) :
    ∃ r0 u sc l,
      env.CREATE_READER (reader_key hp) = some r0 ∧
      env.CREATE_UPDATER hp.updater_type = some u ∧
      env.CREATE_SCORE hp.score_func = some sc ∧
      env.CREATE_LOSS hp.loss_func = some l ∧
      Initialize env args
        = .done (train_final env { Solver.blank with hyper_param_ := hp } r0 u sc l) := by
  obtain ⟨hc, ht, hfile, hcv, hr, hu, hsc, hl⟩ := h
  obtain ⟨r0, hr0⟩ := Option.isSome_iff_exists.mp hr
  obtain ⟨u, hu0⟩ := Option.isSome_iff_exists.mp hu
  obtain ⟨sc, hsc0⟩ := Option.isSome_iff_exists.mp hsc
  obtain ⟨l, hl0⟩ := Option.isSome_iff_exists.mp hl
  refine ⟨r0, u, sc, l, hr0, hu0, hsc0, hl0, ?_⟩
  unfold Initialize
  simp only [hc, ht, if_true]
  rw [train_path_spec env { Solver.blank with hyper_param_ := hp } r0 u sc l rfl hfile hcv hr0
    hu0 hsc0 hl0, Result.done_bind]
  have := train_final_hp env { Solver.blank with hyper_param_ := hp } r0 u sc l
  rw [this]
  simp [ht]

theorem load_model_hp (env : Env) (s : Solver) :
    (load_model env s).hyper_param_.loss_func = s.hyper_param_.loss_func
    ∧ (load_model env s).hyper_param_.is_train = s.hyper_param_.is_train
    ∧ (load_model env s).hyper_param_.score_func
        = (env.checkpoint s.hyper_param_.model_checkpoint_file).score_func := by
  unfold load_model
  simp only [Model.GetScoreFunction]
  split_ifs <;> simp

/-- `Initialize` in inference mode, under `inference_ready`, ends normally in
`inference_final`. -/
theorem Initialize_inference (env : Env) (args : List String) (hp : HyperParam)
    (h : inference_ready env args hp) :
    ∃ r0 sc l,
      env.CREATE_READER (reader_key hp) = some r0 ∧
      env.CREATE_SCORE (env.checkpoint hp.model_checkpoint_file).score_func = some sc ∧
      env.CREATE_LOSS hp.loss_func = some l ∧
      Initialize env args
        = .done (inference_final env { Solver.blank with hyper_param_ := hp } r0 sc l) := by
  obtain ⟨hc, ht, hfile, hr, hsc, hl⟩ := h
  obtain ⟨r0, hr0⟩ := Option.isSome_iff_exists.mp hr
  obtain ⟨sc, hsc0⟩ := Option.isSome_iff_exists.mp hsc
  obtain ⟨l, hl0⟩ := Option.isSome_iff_exists.mp hl
  refine ⟨r0, sc, l, hr0, hsc0, hl0, ?_⟩
  unfold Initialize
  simp only [hc, ht, Bool.false_eq_true, if_false, Result.done_bind]
  unfold inference_path
  have hcr : ∀ s1 : Solver, s1.hyper_param_ = hp → create_reader env s1 = (some r0, s1) := by
    intro s1 h1
    have := hr0
    unfold reader_key at this
    simp only [create_reader, h1, this]
  simp only [create_parser_eq]
  rw [hcr _ rfl]
  simp only [Solver.blank, vector_resize, hfile, if_false]
  simp only [List.take_nil, List.length_nil, Nat.sub_zero, List.replicate_one, List.nil_append,
    List.getElem?_cons_zero, List.set_cons_zero]
  rw [init_score_spec env _ sc (by rw [(load_model_hp env _).2.2]; exact hsc0), Result.done_bind,
    init_loss_spec env _ l (by simp only []; rw [(load_model_hp env _).1]; exact hl0)]
  rfl

theorem list_max_append (a b : List Nat) : list_max (a ++ b) = max (list_max a) (list_max b) := by
  induction a with
  | nil => simp [list_max]
  | cons x a ih =>
    simp only [list_max, List.cons_append, List.foldr_cons] at ih ⊢
    rw [ih, max_assoc]

/-- The computed maximum `list_max` is the true maximum. -/
theorem is_true_max_list_max (vals : List Nat) : is_true_max vals (list_max vals) := by
  induction vals with
  | nil => simp [is_true_max, list_max]
  | cons x l ih =>
    obtain ⟨h1, h2⟩ := ih
    have hcons : list_max (x :: l) = max x (list_max l) := rfl
    rw [hcons]
    refine ⟨?_, ?_⟩
    · intro v hv
      rcases List.mem_cons.mp hv with h | h
      · subst h; exact le_max_left _ _
      · exact le_trans (h1 v h) (le_max_right _ _)
    · rcases le_total x (list_max l) with h | h
      · rw [max_eq_right h]
        rcases h2 with h3 | h3
        · left; exact h3
        · right; exact List.mem_cons_of_mem _ h3
      · rw [max_eq_left h]
        right; exact List.mem_cons_self _ _

/-- The inner loop of `find_max_field` computes the maximum of the running
result and the field ids of the row. -/
theorem foldl_field_step (es : List Node) :
    ∀ res : index_t, es.foldl field_step res = max res (list_max (es.map (fun e => e.field))) := by
  induction es with
  | nil => intro res; simp [list_max]
  | cons e es ih =>
    intro res
    have hcons : list_max ((e :: es).map (fun e => e.field))
        = max e.field (list_max (es.map (fun e => e.field))) := rfl
    rw [List.foldl_cons, ih, hcons, ← max_assoc]
    congr 1
    unfold field_step
    split_ifs with h
    · exact (max_eq_right (le_of_lt h)).symm
    · exact (max_eq_left (not_lt.mp h)).symm

theorem foldl_rows_field (rows : List SparseRow) :
    ∀ res : index_t, rows.foldl (fun acc row => row.entries.foldl field_step acc) res
      = max res (list_max ((all_entries rows).map (fun e => e.field))) := by
  induction rows with
  | nil => intro res; simp [all_entries, list_max]
  | cons row rows ih =>
    intro res
    have hcons : all_entries (row :: rows) = row.entries ++ all_entries rows := by
      simp [all_entries]
    rw [List.foldl_cons, ih, foldl_field_step, hcons, List.map_append, list_max_append, max_assoc]

theorem batch_field_eq (m : DMatrix) :
    batch_field m = list_max ((all_entries m.row).map (fun e => e.field)) := by
  unfold batch_field
  rw [foldl_rows_field]
  exact Nat.zero_max _

theorem foldl_scan_pure_field (batches : List DMatrix) :
    ∀ acc : index_t × index_t, (batches.foldl (scan_pure "ffm") acc).2
      = max acc.2 (list_max ((all_entries (batches.flatMap (fun m => m.row))).map
          (fun e => e.field))) := by
  induction batches with
  | nil => intro acc; simp [all_entries, list_max]
  | cons m ms ih =>
    intro acc
    have hcons : all_entries ((m :: ms).flatMap (fun m => m.row))
        = all_entries m.row ++ all_entries (ms.flatMap (fun m => m.row)) := by
      simp [all_entries]
    rw [List.foldl_cons, ih, hcons, List.map_append, list_max_append, ← max_assoc]
    congr 1
    simp only [scan_pure, if_true, batch_field_eq]
    split_ifs with h
    · exact (max_eq_right (le_of_lt h)).symm
    · exact (max_eq_left (not_lt.mp h)).symm

theorem pass_eq_batches (r : Reader) (hc : r.cursor = 0) (hb : ∀ m ∈ r.batches, m.row ≠ []) :
    r.pass = r.batches := by
  unfold Reader.pass
  rw [hc, List.drop_zero, List.takeWhile_eq_self_iff]
  intro m hm
  have := hb m hm
  simp [this]

/-- For `"ffm"` the pre-scan of readers at their first batch, without empty
batches, computes the maximum of the initial `max_field` and all field ids. -/
theorem scan_all_field (rs : List Reader) (hc : ∀ r ∈ rs, r.cursor = 0)
    (hb : ∀ r ∈ rs, ∀ m ∈ r.batches, m.row ≠ []) :
    ∀ acc : index_t × index_t, (scan_all "ffm" rs acc).2
      = max acc.2 (list_max ((all_entries (all_rows rs)).map (fun e => e.field))) := by
  induction rs with
  | nil => intro acc; simp [scan_all, all_rows, all_entries, list_max]
  | cons r rs ih =>
    intro acc
    have hcons : all_entries (all_rows (r :: rs))
        = all_entries r.rows ++ all_entries (all_rows rs) := by
      simp [all_entries, all_rows]
    have hih := ih (fun r hr => hc r (List.mem_cons_of_mem _ hr))
      (fun r hr => hb r (List.mem_cons_of_mem _ hr))
    unfold scan_all at hih ⊢
    rw [List.foldl_cons, hih, pass_eq_batches r (hc r (List.mem_cons_self _ _))
      (hb r (List.mem_cons_self _ _)), foldl_scan_pure_field, hcons, List.map_append,
      list_max_append, max_assoc]
    rfl


theorem mem_of_getElem? {α : Type} (l : List α) (i : Nat) (a : α) (h : l[i]? = some a) :
    a ∈ l := by
  have hi : i < l.length := by
    by_contra hc
    rw [List.getElem?_eq_none (by omega)] at h
    cases h
  rw [List.getElem?_eq_getElem hi] at h
  cases h
  exact List.getElem_mem hi

/-- When no batch is empty, the reader returned by the `do ... while` loop is at
the end of its stream. -/
theorem scan_reader_exhausts (sf : String) :
    ∀ (fuel : Nat) (r : Reader) (mf mfd : index_t) (out : Reader × index_t × index_t),
      (∀ m ∈ r.batches, m.row ≠ []) →
      scan_reader sf fuel r mf mfd = .ok out → out.1.Samples = (out.1, none, 0) := by
  intro fuel
  induction fuel with
  | zero => intro r mf mfd out _ h; simp [scan_reader] at h
  | succ fuel ih =>
    intro r mf mfd out hb h
    cases hget : r.batches[r.cursor]? with
    | none =>
      simp [scan_reader, Reader.Samples, hget, scan_body_zero] at h
      subst h
      simp [Reader.Samples, hget]
    | some m =>
      have hm : m.row.length ≠ 0 := by
        have := hb m (mem_of_getElem? _ _ _ hget)
        simpa using this
      simp only [scan_reader, Reader.Samples, hget, scan_body_batch] at h
      rw [if_pos hm] at h
      exact ih { r with cursor := r.cursor + 1 } _ _ out hb h

theorem reset_of_cursor_zero (r : Reader) (h : r.cursor = 0) : r.Reset = r := by
  cases r
  simp only [Reader.Reset] at h ⊢
  subst h
  rfl

theorem demo_train_ready (score_func : String)
    (h : score_func = "linear" ∨ score_func = "fm" ∨ score_func = "ffm") :
    train_ready (demo_env (some (demo_param true score_func))) [] (demo_param true score_func) := by
  refine ⟨rfl, rfl, ?_, ?_, rfl, rfl, ?_, rfl⟩
  · simp [demo_param]
  · simp [demo_param]
  · simp [demo_env, demo_scores, demo_param, h]

theorem create_reader_eq (env : Env) (s : Solver) :
    create_reader env s
      = (env.CREATE_READER (reader_key s.hyper_param_),
          { s with log := if (env.CREATE_READER (reader_key s.hyper_param_)).isSome then s.log
                          else s.log ++ ["Cannot create reader: " ++ reader_key s.hyper_param_] }) := by
  unfold create_reader reader_key
  simp only []
  cases env.CREATE_READER (if s.hyper_param_.on_disk = true then "disk" else "memory") <;>
    simp [Solver.log_error]

theorem Result.aborted_bind {α β : Type} (s : Solver) (f : α → Result β) :
    (Result.aborted s : Result α).bind f = .aborted s := rfl

/-- The train path aborts on the untouched solver when the training file is not
named or the fold count is not positive under cross-validation. -/
theorem train_path_aborts (env : Env) (s : Solver)
    (hbad : s.hyper_param_.train_set_file = "" ∨
      (s.hyper_param_.cross_validation = true ∧ s.hyper_param_.num_folds ≤ 0)) :
    train_path env s = .aborted s := by
  unfold train_path train_setup
  by_cases hc : s.hyper_param_.cross_validation = true
  · have : train_split s = .aborted s := by
      unfold train_split
      rcases hbad with h | ⟨_, h⟩
      · simp [hc, h]
      · have h2 : ¬ s.hyper_param_.num_folds > 0 := by omega
        simp [hc, h2]
    rw [this]
    rfl
  · have hf : s.hyper_param_.train_set_file = "" := by
      rcases hbad with h | ⟨h, _⟩
      · exact h
      · exact absurd h hc
    have h1 : train_split s = .done s := by simp [train_split, hc]
    have h2 : train_file_list s = .aborted s := by simp [train_file_list, hc, hf]
    rw [h1, Result.done_bind, h2]
    rfl

/-- The inference path with an empty `inference_file` aborts after the parser
and the reader have been requested from the registry. -/
theorem inference_path_aborts (env : Env) (s : Solver) (hrd : s.reader_ = [])
    (hinf : s.hyper_param_.inference_file = "") :
    inference_path env s
      = .aborted { s with
          parser_ := env.CREATE_PARSER s.hyper_param_.file_format,
          reader_ := [env.CREATE_READER (reader_key s.hyper_param_)],
          log :=
            if (env.CREATE_READER (reader_key s.hyper_param_)).isSome then
              (if (env.CREATE_PARSER s.hyper_param_.file_format).isSome then s.log
               else s.log ++ ["Cannot create parser: " ++ s.hyper_param_.file_format])
            else
              (if (env.CREATE_PARSER s.hyper_param_.file_format).isSome then s.log
               else s.log ++ ["Cannot create parser: " ++ s.hyper_param_.file_format])
              ++ ["Cannot create reader: " ++ reader_key s.hyper_param_] } := by
  unfold inference_path
  simp only [create_parser_eq, create_reader_eq, hinf, if_true, hrd, vector_resize]
  rfl

/-- The value that source lines 140-148 store, written out. -/
theorem init_num_param_value (bits : Nat) (s : Solver) (a b : index_t) :
    (init_num_param bits s a b).hyper_param_
      = { s.hyper_param_ with
            num_param :=
              (if s.hyper_param_.score_func = "fm" then a + 1 + a * s.hyper_param_.num_K
               else if s.hyper_param_.score_func = "ffm" then
                 a + 1 + a * b * s.hyper_param_.num_K
               else a + 1) % 2 ^ bits } := by
  unfold init_num_param index_wrap
  split_ifs <;> rfl

/-- For the three families the stored value is the table value modulo
`2 ^ bits`. -/
theorem init_num_param_table (bits : Nat) (s : Solver) (a b : index_t) (table : Nat)
    (ht : num_param_table s.hyper_param_.score_func a b s.hyper_param_.num_K = some table) :
    (init_num_param bits s a b).hyper_param_.num_param = table % 2 ^ bits := by
  rw [init_num_param_value]
  simp only [num_param_table] at ht
  split_ifs at ht with h1 h2 h3
  · cases ht; simp [h1]
  · cases ht; simp [h2]
  · cases ht; simp [h3]

/-- The configuration with which the train path ends, written out. -/
theorem train_final_value (env : Env) (s : Solver) (r0 : Reader) (u : Updater) (sc : Score)
    (l : Loss) :
    (train_final env s r0 u sc l).hyper_param_
      = { s.hyper_param_ with
            num_feature := (scan_all s.hyper_param_.score_func (setup_readers env s.hyper_param_
              (env.CREATE_PARSER s.hyper_param_.file_format) r0) (0, 0)).1,
            num_field := (scan_all s.hyper_param_.score_func (setup_readers env s.hyper_param_
              (env.CREATE_PARSER s.hyper_param_.file_format) r0) (0, 0)).2,
            num_param :=
              (if s.hyper_param_.score_func = "fm" then
                 (scan_all s.hyper_param_.score_func (setup_readers env s.hyper_param_
                   (env.CREATE_PARSER s.hyper_param_.file_format) r0) (0, 0)).1 + 1
                 + (scan_all s.hyper_param_.score_func (setup_readers env s.hyper_param_
                   (env.CREATE_PARSER s.hyper_param_.file_format) r0) (0, 0)).1
                   * s.hyper_param_.num_K
               else if s.hyper_param_.score_func = "ffm" then
                 (scan_all s.hyper_param_.score_func (setup_readers env s.hyper_param_
                   (env.CREATE_PARSER s.hyper_param_.file_format) r0) (0, 0)).1 + 1
                 + (scan_all s.hyper_param_.score_func (setup_readers env s.hyper_param_
                   (env.CREATE_PARSER s.hyper_param_.file_format) r0) (0, 0)).1
                   * (scan_all s.hyper_param_.score_func (setup_readers env s.hyper_param_
                   (env.CREATE_PARSER s.hyper_param_.file_format) r0) (0, 0)).2
                   * s.hyper_param_.num_K
               else
                 (scan_all s.hyper_param_.score_func (setup_readers env s.hyper_param_
                   (env.CREATE_PARSER s.hyper_param_.file_format) r0) (0, 0)).1 + 1)
              % 2 ^ env.index_bits } := by
  simp only [train_final, create_model_hp]
  rw [init_num_param_value]
  rfl

/-- Whatever the width of `index_t`, the table value does not always fit: for
`"linear"` with `max_feat = 2 ^ bits - 1` the stored value is `0`. -/
theorem num_param_wraps_at_every_width (bits : Nat) (s : Solver)
    (hl : s.hyper_param_.score_func = "linear") :
    (init_num_param bits s (2 ^ bits - 1) 0).hyper_param_.num_param = 0 ∧
    num_param_table "linear" (2 ^ bits - 1) 0 s.hyper_param_.num_K = some (2 ^ bits) := by
  have hpos : 0 < 2 ^ bits := Nat.two_pow_pos bits
  have hsub : 2 ^ bits - 1 + 1 = 2 ^ bits := Nat.sub_add_cancel hpos
  constructor
  · simp [init_num_param, hl, index_wrap, hsub]
  · simp [num_param_table, hsub]

/-! ## Main theorems -/

/-- C1 (amended): in the train path the value stored in `num_param` is the one
of the closed-form table (`max_feat + 1` for `"linear"`,
`max_feat + 1 + max_feat * K` for `"fm"`,
`max_feat + 1 + max_feat * max_field * K` for `"ffm"`) reduced modulo
`2 ^ index_bits`, the range of `index_t`; it is the table value itself whenever
that value is below `2 ^ index_bits`.  This holds for every pre-scan result
`(max_feat, max_field)` and every `num_K` at source lines 140-148, and for the
`num_feature`, `num_field` and `num_K` with which a run of `Initialize` in train
mode ends, the stored `num_feature` and `num_field` being the results of the
pre-scan. -/
theorem C1_num_param_closed_form (env : Env) (args : List String) (hp : HyperParam)
    (h : train_ready env args hp) (s0 : Solver) (max_feat max_field : index_t) :
    (∀ table,
      num_param_table s0.hyper_param_.score_func max_feat max_field s0.hyper_param_.num_K
        = some table →
      (init_num_param env.index_bits s0 max_feat max_field).hyper_param_.num_param
        = table % 2 ^ env.index_bits ∧
      (table < 2 ^ env.index_bits →
        (init_num_param env.index_bits s0 max_feat max_field).hyper_param_.num_param = table)) ∧
    ∃ s, Initialize env args = .done s ∧
      s.hyper_param_.score_func = hp.score_func ∧ s.hyper_param_.num_K = hp.num_K ∧
      (hp.score_func = "linear" →
        s.hyper_param_.num_param = (s.hyper_param_.num_feature + 1) % 2 ^ env.index_bits) ∧
      (hp.score_func = "fm" →
        s.hyper_param_.num_param
          = (s.hyper_param_.num_feature + 1 + s.hyper_param_.num_feature * hp.num_K)
              % 2 ^ env.index_bits) ∧
      (hp.score_func = "ffm" →
        s.hyper_param_.num_param
          = (s.hyper_param_.num_feature + 1
              + s.hyper_param_.num_feature * s.hyper_param_.num_field * hp.num_K)
              % 2 ^ env.index_bits) ∧
      (∀ table,
        num_param_table hp.score_func s.hyper_param_.num_feature s.hyper_param_.num_field
          hp.num_K = some table →
        table < 2 ^ env.index_bits → s.hyper_param_.num_param = table) ∧
      ∃ su sp, train_setup env { Solver.blank with hyper_param_ := hp } = .done su ∧
        prescan_loop su.2.toNat 0 su.1 0 0
          = .done (sp, s.hyper_param_.num_feature, s.hyper_param_.num_field) := by
  refine ⟨fun table ht => ⟨init_num_param_table _ s0 _ _ table ht, fun hlt => ?_⟩, ?_⟩
  · rw [init_num_param_table _ s0 _ _ table ht, Nat.mod_eq_of_lt hlt]
  obtain ⟨r0, u, sc, l, hr0, _, _, _, hdone⟩ := Initialize_train env args hp h
  refine ⟨_, hdone, ?_⟩
  have hpre := train_prescan_spec env { Solver.blank with hyper_param_ := hp } r0 rfl h.2.2.1
    h.2.2.2.1 hr0
  have hhp := train_final_value env { Solver.blank with hyper_param_ := hp } r0 u sc l
  simp only [] at hhp
  rw [hhp]
  refine ⟨rfl, rfl, ?_, ?_, ?_, ?_, hpre⟩
  · intro hl
    simp [hl]
  · intro hl
    simp [hl]
  · intro hl
    simp [hl]
  · intro table ht hlt
    simp only [num_param_table] at ht
    split_ifs at ht with h1 h2 h3
    · cases ht
      have hm := Nat.mod_eq_of_lt hlt
      simpa [h1] using hm
    · cases ht
      have hm := Nat.mod_eq_of_lt hlt
      simpa [h2] using hm
    · cases ht
      have hm := Nat.mod_eq_of_lt hlt
      simpa [h3] using hm

theorem C1_num_param_closed_form_witness :
    train_ready (demo_env (some (demo_param true "ffm"))) [] (demo_param true "ffm") ∧
    num_param_table "fm" 100 0 4 = some 501 ∧ 501 < 2 ^ 32 ∧
    (init_num_param 32 (demo_solver "fm" []) 100 0).hyper_param_.num_param = 501 ∧
    (Initialize (demo_env (some (demo_param true "ffm"))) []).solver.hyper_param_.num_param
      = 14 ∧
    ∃ s, Initialize (demo_env (some (demo_param true "ffm"))) [] = .done s ∧
      s.hyper_param_.num_param
        = (s.hyper_param_.num_feature + 1
            + s.hyper_param_.num_feature * s.hyper_param_.num_field * 4) % 2 ^ 32 := by
  obtain ⟨h1, s, h2, _, _, _, _, h3, _⟩ := C1_num_param_closed_form
    (demo_env (some (demo_param true "ffm"))) [] (demo_param true "ffm")
    (demo_train_ready "ffm" (by decide)) (demo_solver "fm" []) 100 0
  exact ⟨demo_train_ready "ffm" (by decide), by decide, by decide,
    (h1 501 (by decide)).2 (by decide), by decide, s, h2, h3 rfl⟩

/-- C1 (counterexample): with a 32-bit `index_t`, family `"ffm"`,
`max_feat = 65536`, `max_field = 65536` and `num_K = 1`, the table value is
`4295032833` but source lines 144-145 store `65537`; a run of `Initialize` on a
file whose only entry has feature index, value and field id `65536` ends with
these values.  For `"linear"` with `max_feat = 4294967295` the table value is
`4294967296` and the stored value is `0`. -/
theorem C1_counterexample_num_param_wraps :
    (Initialize demo_env_wide []).solver.hyper_param_.num_feature = 65536 ∧
    (Initialize demo_env_wide []).solver.hyper_param_.num_field = 65536 ∧
    (Initialize demo_env_wide []).solver.hyper_param_.num_K = 1 ∧
    (Initialize demo_env_wide []).solver.hyper_param_.num_param = 65537 ∧
    num_param_table "ffm" 65536 65536 1 = some 4295032833 ∧
    (init_num_param 32 (demo_solver "linear" []) 4294967295 0).hyper_param_.num_param = 0 ∧
    num_param_table "linear" 4294967295 0 4 = some 4294967296 := by
  decide

/-- The three examples of the specification: `fm` with `max_feature = 100`,
`K = 4` gives `501`; `ffm` with `50`, `max_field = 3`, `K = 8` gives `1251`;
`linear` with `7` gives `8` (32-bit `index_t`). -/
theorem num_param_examples :
    (init_num_param 32 (demo_solver "fm" []) 100 0).hyper_param_.num_param = 501 ∧
    (init_num_param 32
      { Solver.blank with hyper_param_ := { demo_param true "ffm" with num_K := 8 } }
      50 3).hyper_param_.num_param = 1251 ∧
    (init_num_param 32 (demo_solver "linear" []) 7 0).hyper_param_.num_param = 8 := by
  decide

/-- C2 (evaluation of the code): on the batch with the single entry
`(idx = 5, X = 1)` the true maximum feature index is `5`, but `find_max_feature`
returns `1`, the value `X` of the entry; and `Initialize` on the demo files,
whose true maximum feature index is `7`, stores `num_feature = 1`. -/
theorem C2_find_max_feature_returns_a_value :
    find_max_feature (some { row := [{ entries := [⟨5, 1, 0⟩] }] }) 1 = .ok 1 ∧
    is_true_max [5] 5 ∧
    (Initialize (demo_env (some (demo_param true "linear"))) []).solver.hyper_param_.num_feature
      = 1 ∧
    is_true_max ((all_entries demo_rows).map (fun e => e.idx)) 7 :=
  ⟨rfl, by decide, by decide, by decide⟩

/-- C3: when the family is `"ffm"`, the pre-scan of any list of readers, each
at its first batch and each cut into batches of at least one row in any way,
ends normally, and the `max_field` it computes (and stores in `num_field`, as
soon as there is a reader) is the true maximum of the field ids of all entries
of all rows of all readers together; the value depends on the concatenated rows
only, not on the way they are cut into batches. -/
theorem C3_max_field_is_true_maximum (s : Solver) (readers : List Reader)
    (hffm : s.hyper_param_.score_func = "ffm")
    (hrd : s.reader_ = readers.map some)
    (hstart : ∀ r ∈ readers, r.cursor = 0)
    (hbatch : ∀ r ∈ readers, ∀ m ∈ r.batches, m.row ≠ []) :
    ∃ s1 max_feat max_field,
      prescan_loop readers.length 0 s 0 0 = .done (s1, max_feat, max_field) ∧
      (readers ≠ [] → s1.hyper_param_.num_field = max_field) ∧
      max_field = list_max ((all_entries (all_rows readers)).map (fun e => e.field)) ∧
      is_true_max ((all_entries (all_rows readers)).map (fun e => e.field)) max_field := by
  have hps := prescan_loop_spec readers [] s 0 0 (by simpa using hrd)
  simp only [List.length_nil] at hps
  have hval := scan_all_field readers hstart hbatch (0, 0)
  rw [Nat.zero_max] at hval
  rw [hffm] at hps
  refine ⟨_, (scan_all "ffm" readers (0, 0)).1, (scan_all "ffm" readers (0, 0)).2, hps, ?_,
    hval, ?_⟩
  · intro hne
    simp [hne]
  · rw [hval]; exact is_true_max_list_max _

theorem C3_max_field_is_true_maximum_witness :
    ∃ s1 max_feat max_field,
      prescan_loop 2 0 (demo_solver "ffm" [demo_reader 0, demo_reader 1]) 0 0
        = .done (s1, max_feat, max_field) ∧
      s1.hyper_param_.num_field = max_field ∧
      max_field = 3 ∧
      is_true_max ((all_entries (all_rows [demo_reader 0, demo_reader 1])).map
        (fun e => e.field)) max_field := by
  obtain ⟨s1, a, b, h1, h2, h3, h4⟩ := C3_max_field_is_true_maximum
    (demo_solver "ffm" [demo_reader 0, demo_reader 1])
    [demo_reader 0, demo_reader 1] rfl rfl (by decide) (by decide)
  exact ⟨s1, a, b, h1, h2 (by decide), h3.trans (by decide), h4⟩

/-- C4: every run of `Initialize` in inference mode whose components exist
loads the model from the checkpoint file and ends with the family and
`num_feature` of the configuration equal to the values of the model's accessors,
with `num_K` equal to the model's `K` when the loaded family is `"fm"` or
`"ffm"`, and with `num_field` equal to the model's `num_field` when the loaded
family is `"ffm"`, whatever values the caller supplied for these fields. -/
theorem C4_inference_overrides_configuration (env : Env) (args : List String)
    (hp : HyperParam) (h : inference_ready env args hp) :
    ∃ s m,
      Initialize env args = .done s ∧
      s.model_ = some m ∧
      m = Model.loaded hp.model_checkpoint_file (env.checkpoint hp.model_checkpoint_file) ∧
      s.hyper_param_.score_func = m.GetScoreFunction ∧
      s.hyper_param_.num_feature = m.GetNumFeature ∧
      (m.GetScoreFunction = "fm" ∨ m.GetScoreFunction = "ffm" →
        s.hyper_param_.num_K = m.GetNumK) ∧
      (m.GetScoreFunction = "ffm" → s.hyper_param_.num_field = m.GetNumField) := by
  obtain ⟨r0, sc, l, _, _, _, hdone⟩ := Initialize_inference env args hp h
  refine ⟨_, _, hdone, ?_, rfl, ?_, ?_, ?_, ?_⟩
  · simp [inference_final, load_model]
  · simp only [inference_final, load_model, Model.GetScoreFunction]
    split_ifs <;> rfl
  · simp only [inference_final, load_model, Model.GetScoreFunction, Model.GetNumFeature]
    split_ifs <;> rfl
  · intro hm
    simp only [Model.GetScoreFunction] at hm
    simp only [inference_final, load_model, Model.GetScoreFunction, Model.GetNumK]
    split_ifs <;> simp_all
  · intro hm
    simp only [Model.GetScoreFunction] at hm
    simp only [inference_final, load_model, Model.GetScoreFunction, Model.GetNumField]
    split_ifs <;> simp_all

theorem C4_inference_overrides_configuration_witness :
    inference_ready (demo_env (some (demo_param false "linear"))) []
      (demo_param false "linear") ∧
    (demo_param false "linear").num_feature = 99 ∧ (demo_param false "linear").num_K = 4 ∧
    (demo_param false "linear").num_field = 98 ∧
    ∃ s,
      Initialize (demo_env (some (demo_param false "linear"))) [] = .done s ∧
      s.hyper_param_.score_func = "ffm" ∧ s.hyper_param_.num_feature = 7 ∧
      s.hyper_param_.num_K = 8 ∧ s.hyper_param_.num_field = 3 := by
  have hr : inference_ready (demo_env (some (demo_param false "linear"))) []
      (demo_param false "linear") := ⟨rfl, rfl, by decide, rfl, rfl, rfl⟩
  obtain ⟨s, m, h1, _, h3, h4, h5, h6, h7⟩ := C4_inference_overrides_configuration
    (demo_env (some (demo_param false "linear"))) [] (demo_param false "linear") hr
  subst h3
  exact ⟨hr, rfl, rfl, rfl, s, h1, h4, h5, h6 (Or.inr rfl), h7 rfl⟩

/-- C5: in the train path, when the training file is named, the fold count is
positive under cross-validation and the registry knows the reader key, the code
up to the creation of the readers ends normally; `num_reader` and the number of
readers created equal the length of the reference list of files (the fold files
`"<train_set_file>_0"`, ..., `"<train_set_file>_<n-1>"` in that order under
cross-validation; otherwise the training file followed by the test file iff the
latter is named), and reader `i` is the registry object initialised with file
`i` of that list. -/
theorem C5_file_list_matches_reference (env : Env) (hp : HyperParam) (r0 : Reader)
    (hfile : hp.train_set_file ≠ "")
    (hcv : hp.cross_validation = true → 0 < hp.num_folds)
    (hr0 : env.CREATE_READER (reader_key hp) = some r0) :
    ∃ s2 num_reader,
      train_setup env { Solver.blank with hyper_param_ := hp } = .done (s2, num_reader) ∧
      num_reader = ((reference_file_list hp).length : Int) ∧
      s2.reader_.length = (reference_file_list hp).length ∧
      s2.reader_ = (reference_file_list hp).map (fun f =>
        some (r0.Initialize f hp.batch_size s2.parser_ (env.content f hp.batch_size))) ∧
      s2.reader_.map (Option.map Reader.filename) = (reference_file_list hp).map some ∧
      (hp.cross_validation = true →
        (reference_file_list hp).length = hp.num_folds.toNat ∧
        ∀ i, i < hp.num_folds.toNat →
          (reference_file_list hp)[i]? = some (hp.train_set_file ++ "_" ++ toString i)) ∧
      (hp.cross_validation = false → hp.test_set_file = "" →
        reference_file_list hp = [hp.train_set_file]) ∧
      (hp.cross_validation = false → hp.test_set_file ≠ "" →
        reference_file_list hp = [hp.train_set_file, hp.test_set_file]) := by
  have hs := train_setup_spec env { Solver.blank with hyper_param_ := hp } r0 rfl hfile hcv hr0
  refine ⟨_, _, hs, rfl, ?_, ?_, ?_, ?_, ?_, ?_⟩
  · simp [setup_state, setup_readers]
  · simp [setup_state, setup_readers]
  · simp [setup_state, setup_readers, Reader.Initialize]
  · intro hc
    refine ⟨by simp [reference_file_list, hc], ?_⟩
    intro i hi
    simp [reference_file_list, hc, hi]
  · intro hc ht
    simp [reference_file_list, hc, ht]
  · intro hc ht
    simp [reference_file_list, hc, ht]

theorem C5_file_list_matches_reference_witness :
    ("train.txt" ≠ "" ∧ (0 : Int) < 3) ∧
    ∃ s2 num_reader,
      train_setup (demo_env none)
        { Solver.blank with hyper_param_ :=
            { demo_param true "fm" with cross_validation := true, num_folds := 3 } }
        = .done (s2, num_reader) ∧
      num_reader = 3 ∧ s2.reader_.length = 3 ∧
      s2.reader_.map (Option.map Reader.filename)
        = [some "train.txt_0", some "train.txt_1", some "train.txt_2"] := by
  refine ⟨⟨by decide, by decide⟩, ?_⟩
  obtain ⟨s2, n, h1, h2, h3, _, h5, _⟩ := C5_file_list_matches_reference (demo_env none)
    { demo_param true "fm" with cross_validation := true, num_folds := 3 }
    { kind := "memory", filename := "", batch_size := 0, parser := none, batches := [],
      cursor := 0 }
    (by decide) (by decide) rfl
  exact ⟨s2, n, h1, h2, h3, h5⟩

/-- C6 (evaluation of the code): with an `updater_type`, a `score_func` or a
`loss_func` that the registry does not know, `create_updater`, `create_score`
or `create_loss` writes the error line and returns the null pointer, and
`Initialize` goes on to call `Initialize` on that null pointer: the run ends in
a null dereference, not in a reported failure.  The same happens in inference
mode when the family stored in the checkpoint is unknown to the registry. -/
theorem C6_unknown_key_dereferences_null :
    (Initialize (demo_env (some { demo_param true "fm" with updater_type := "xyz" })) []).is_crashed
      = true ∧
    (Initialize (demo_env (some { demo_param true "fm" with updater_type := "xyz" })) []).solver.log
      = ["Cannot create updater: xyz"] ∧
    (Initialize (demo_env (some { demo_param true "fm" with updater_type := "xyz" })) []).solver.updater_
      = none ∧
    (Initialize (demo_env (some (demo_param true "xyz"))) []).is_crashed = true ∧
    (Initialize (demo_env (some (demo_param true "xyz"))) []).solver.log
      = ["Cannot create score: xyz"] ∧
    (Initialize (demo_env (some { demo_param true "fm" with loss_func := "xyz" })) []).is_crashed
      = true ∧
    (Initialize (demo_env (some { demo_param true "fm" with loss_func := "xyz" })) []).solver.log
      = ["Cannot create loss: xyz"] ∧
    (Initialize demo_env_unknown_family []).is_crashed = true ∧
    (Initialize demo_env_unknown_family []).solver.log = ["Cannot create score: xyz"] ∧
    (Initialize demo_env_unknown_family []).solver.score_ = none := by
  decide

/-- C7 (amended): once the arguments have passed the check, `Initialize` aborts
whenever the training file is not named in train mode, whenever
cross-validation is requested in train mode with `num_folds <= 0`, and whenever
the inference file is not named in inference mode.  At the abort no model,
updater, score or loss exists.  In train mode no parser and no reader exists
either; in inference mode the parser and the reader have already been requested
from the registry (the reader not yet bound to a file). -/
theorem C7_abort_on_missing_file_or_folds (env : Env) (args : List String) (hp : HyperParam)
    (hc : env.Check args = some hp)
    (hbad : (hp.is_train = true ∧ hp.train_set_file = "") ∨
            (hp.is_train = true ∧ hp.cross_validation = true ∧ hp.num_folds ≤ 0) ∨
            (hp.is_train = false ∧ hp.inference_file = "")) :
    ∃ s, Initialize env args = .aborted s ∧
      s.model_ = none ∧ s.updater_ = none ∧ s.score_ = none ∧ s.loss_ = none ∧
      (hp.is_train = true → s.parser_ = none ∧ s.reader_ = []) ∧
      (hp.is_train = false →
        s.parser_ = env.CREATE_PARSER hp.file_format ∧
        s.reader_ = [env.CREATE_READER (reader_key hp)]) := by
  by_cases ht : hp.is_train = true
  · have hb : hp.train_set_file = "" ∨ (hp.cross_validation = true ∧ hp.num_folds ≤ 0) := by
      rcases hbad with h | h | h
      · exact Or.inl h.2
      · exact Or.inr h.2
      · rw [ht] at h; exact absurd h.1 (by decide)
    refine ⟨{ Solver.blank with hyper_param_ := hp }, ?_, rfl, rfl, rfl, rfl,
      fun _ => ⟨rfl, rfl⟩, fun h => ?_⟩
    · unfold Initialize
      simp only [hc, ht, if_true]
      rw [train_path_aborts env _ hb]
      rfl
    · rw [ht] at h; exact absurd h (by decide)
  · have htf : hp.is_train = false := by simpa using ht
    have hinf : hp.inference_file = "" := by
      rcases hbad with h | h | h
      · exact absurd h.1 ht
      · exact absurd h.1 ht
      · exact h.2
    have hab := inference_path_aborts env { Solver.blank with hyper_param_ := hp } rfl hinf
    have hI : Initialize env args
        = inference_path env { Solver.blank with hyper_param_ := hp } := by
      unfold Initialize
      simp only [hc, htf, Bool.false_eq_true, if_false, Result.done_bind]
    rw [hab] at hI
    exact ⟨_, hI, rfl, rfl, rfl, rfl, fun h => absurd h ht, fun _ => ⟨rfl, rfl⟩⟩

theorem C7_abort_on_missing_file_or_folds_witness :
    (demo_cv_no_folds.is_train = true ∧ demo_cv_no_folds.cross_validation = true ∧
      demo_cv_no_folds.num_folds ≤ 0) ∧
    ∃ s, Initialize (demo_env (some demo_cv_no_folds)) [] = .aborted s ∧
      s.model_ = none ∧ s.updater_ = none ∧ s.score_ = none ∧ s.loss_ = none ∧
      (demo_cv_no_folds.is_train = true → s.parser_ = none ∧ s.reader_ = []) ∧
      (demo_cv_no_folds.is_train = false →
        s.parser_ = (demo_env (some demo_cv_no_folds)).CREATE_PARSER demo_cv_no_folds.file_format ∧
        s.reader_ = [(demo_env (some demo_cv_no_folds)).CREATE_READER
                      (reader_key demo_cv_no_folds)]) :=
  ⟨⟨rfl, rfl, by decide⟩,
   C7_abort_on_missing_file_or_folds (demo_env (some demo_cv_no_folds)) [] demo_cv_no_folds rfl
    (Or.inr (Or.inl ⟨rfl, rfl, by decide⟩))⟩

/-- C7 (counterexample): in inference mode with an empty `inference_file` the
run aborts, but at the abort a parser and a reader have been constructed. -/
theorem C7_counterexample_inference_abort_after_construction :
    (Initialize (demo_env (some { demo_param false "linear" with inference_file := "" })) []).is_aborted
      = true ∧
    (Initialize (demo_env (some { demo_param false "linear" with inference_file := "" })) []).solver.parser_
      = some { kind := "libffm" } ∧
    (Initialize (demo_env (some { demo_param false "linear" with inference_file := "" })) []).solver.reader_
      = [some { kind := "memory", filename := "", batch_size := 0, parser := none,
                batches := [], cursor := 0 }] := by
  decide

/-- C8: the pre-scan of any list of readers ends normally and leaves every
reader rewound (`Reset`), that is at its first-batch state with its content
unchanged; the reader state that `Reset` is applied to is one at which `Samples`
reports the end of the stream (for readers whose batches are non-empty); and
when the readers start at their first batch, the solver after the pre-scan holds
the same readers as before, and a second pre-scan yields the same `max_feat` and
`max_field` as the first. -/
theorem C8_prescan_rewinds_readers (s : Solver) (readers : List Reader)
    (hrd : s.reader_ = readers.map some) :
    ∃ s1 mx,
      prescan_loop readers.length 0 s 0 0 = .done (s1, mx) ∧
      s1.reader_ = readers.map (fun r => some r.Reset) ∧
      (∀ r ∈ readers, r.Reset.cursor = 0 ∧ r.Reset.batches = r.batches) ∧
      (∀ r ∈ readers, (∀ m ∈ r.batches, m.row ≠ []) →
        ∀ (max_feat max_field : index_t) (out : Reader × index_t × index_t),
          scan_reader s.hyper_param_.score_func (r.batches.length + 1) r max_feat max_field
            = .ok out → out.1.Samples = (out.1, none, 0)) ∧
      ((∀ r ∈ readers, r.cursor = 0) →
        s1.reader_ = s.reader_ ∧ prescan_loop readers.length 0 s1 0 0 = .done (s1, mx)) := by
  have hps := prescan_loop_spec readers [] s 0 0 (by simpa using hrd)
  simp only [List.length_nil, List.nil_append] at hps
  refine ⟨_, _, hps, rfl, fun r _ => ⟨rfl, rfl⟩, ?_, ?_⟩
  · intro r _ hb mf mfd out h
    exact scan_reader_exhausts _ _ r mf mfd out hb h
  · intro hstart
    have hmap : readers.map (fun r => some r.Reset) = readers.map some := by
      apply List.map_congr_left
      intro r hr
      rw [reset_of_cursor_zero r (hstart r hr)]
    refine ⟨by simp only [hmap, hrd], ?_⟩
    have h2 := prescan_loop_spec readers []
      { s with
          reader_ := readers.map (fun r => some r.Reset),
          hyper_param_ :=
            if readers = [] then s.hyper_param_
            else { s.hyper_param_ with
                    num_feature := (scan_all s.hyper_param_.score_func readers (0, 0)).1,
                    num_field := (scan_all s.hyper_param_.score_func readers (0, 0)).2 } } 0 0
      (by simp [hmap])
    simp only [List.length_nil, List.nil_append] at h2
    rw [h2]
    by_cases hne : readers = []
    · subst hne; simp
    · simp [hne]

theorem C8_prescan_rewinds_readers_witness :
    (∀ r ∈ [demo_reader 0, demo_reader 1], r.cursor = 0) ∧
    ∃ s1 mx,
      prescan_loop 2 0 (demo_solver "ffm" [demo_reader 0, demo_reader 1]) 0 0 = .done (s1, mx) ∧
      s1.reader_ = [some (demo_reader 0).Reset, some (demo_reader 1).Reset] ∧
      s1.reader_ = (demo_solver "ffm" [demo_reader 0, demo_reader 1]).reader_ ∧
      prescan_loop 2 0 s1 0 0 = .done (s1, mx) := by
  obtain ⟨s1, mx, h1, h2, _, _, h5⟩ := C8_prescan_rewinds_readers
    (demo_solver "ffm" [demo_reader 0, demo_reader 1]) [demo_reader 0, demo_reader 1] rfl
  exact ⟨by decide, s1, mx, h1, h2, (h5 (by decide)).1, (h5 (by decide)).2⟩

/-- C9: every run of `Initialize` in train mode whose components exist builds
the model with all-zero initialisation (`gaussian = false`) if and only if the
family string is exactly `"linear"`, and with Gaussian initialisation otherwise;
the configuration handed to the constructor is the final one, which is the
checked configuration with `num_feature` and `num_field` set to the results
`max_feat` and `max_field` of the pre-scan and `num_param` set to the value of
source lines 140-148 (the formula of the family, in `index_t` arithmetic). -/
theorem C9_model_initialisation (env : Env) (args : List String) (hp : HyperParam)
    (h : train_ready env args hp) :
    ∃ s gaussian max_feat max_field,
      Initialize env args = .done s ∧
      s.model_ = some (Model.fresh s.hyper_param_ gaussian) ∧
      (gaussian = false ↔ hp.score_func = "linear") ∧
      (gaussian = true ↔ hp.score_func ≠ "linear") ∧
      (∃ su sp, train_setup env { Solver.blank with hyper_param_ := hp } = .done su ∧
        prescan_loop su.2.toNat 0 su.1 0 0 = .done (sp, max_feat, max_field)) ∧
      s.hyper_param_ =
        { hp with
            num_feature := max_feat,
            num_field := max_field,
            num_param :=
              (if hp.score_func = "fm" then max_feat + 1 + max_feat * hp.num_K
               else if hp.score_func = "ffm" then
                 max_feat + 1 + max_feat * max_field * hp.num_K
               else max_feat + 1) % 2 ^ env.index_bits } := by
  obtain ⟨r0, u, sc, l, hr0, _, _, _, hdone⟩ := Initialize_train env args hp h
  have hpre := train_prescan_spec env { Solver.blank with hyper_param_ := hp } r0 rfl h.2.2.1
    h.2.2.2.1 hr0
  have hhp := train_final_value env { Solver.blank with hyper_param_ := hp } r0 u sc l
  refine ⟨_, decide (hp.score_func ≠ "linear"),
    (scan_all hp.score_func (setup_readers env hp (env.CREATE_PARSER hp.file_format) r0) (0, 0)).1,
    (scan_all hp.score_func (setup_readers env hp (env.CREATE_PARSER hp.file_format) r0) (0, 0)).2,
    hdone, ?_, by simp, by simp, hpre, hhp⟩
  simp only [train_final, create_model, setup_state, init_num_param]
  split_ifs <;> simp_all

theorem C9_model_initialisation_witness :
    train_ready (demo_env (some (demo_param true "linear"))) [] (demo_param true "linear") ∧
    (demo_param true "linear").num_param = 97 ∧
    (Initialize (demo_env (some (demo_param true "linear"))) []).solver.model_
      = some (Model.fresh
          { demo_param true "linear" with num_feature := 1, num_field := 0, num_param := 2 }
          false) ∧
    ∃ s gaussian max_feat max_field,
      Initialize (demo_env (some (demo_param true "linear"))) [] = .done s ∧
      s.model_ = some (Model.fresh s.hyper_param_ gaussian) ∧
      (gaussian = false ↔ (demo_param true "linear").score_func = "linear") ∧
      (gaussian = true ↔ (demo_param true "linear").score_func ≠ "linear") ∧
      (∃ su sp, train_setup (demo_env (some (demo_param true "linear")))
          { Solver.blank with hyper_param_ := demo_param true "linear" } = .done su ∧
        prescan_loop su.2.toNat 0 su.1 0 0 = .done (sp, max_feat, max_field)) ∧
      s.hyper_param_ =
        { demo_param true "linear" with
            num_feature := max_feat,
            num_field := max_field,
            num_param :=
              (if (demo_param true "linear").score_func = "fm" then
                 max_feat + 1 + max_feat * (demo_param true "linear").num_K
               else if (demo_param true "linear").score_func = "ffm" then
                 max_feat + 1 + max_feat * max_field * (demo_param true "linear").num_K
               else max_feat + 1) % 2 ^ (demo_env (some (demo_param true "linear"))).index_bits } :=
  ⟨demo_train_ready "linear" (by decide), rfl, by decide,
   C9_model_initialisation (demo_env (some (demo_param true "linear"))) []
     (demo_param true "linear") (demo_train_ready "linear" (by decide))⟩

/-- C10: for every matrix pointer, the null pointer included, `find_max_feature`
and `find_max_field` called with `num_samples = 0` return `0` without reading the
matrix (reading a null matrix is a fault in the embedding, and none occurs);
hence the last iteration of the pre-scan `do` body, which runs on the
end-of-stream batch of size `0`, leaves `max_feat` and `max_field` unchanged. -/
theorem C10_zero_samples_reads_nothing (matrix : Option DMatrix) (score_func : String)
    (max_feat max_field : index_t) :
    find_max_feature matrix 0 = .ok 0 ∧ find_max_field matrix 0 = .ok 0 ∧
    find_max_feature none 0 = .ok 0 ∧ find_max_field none 0 = .ok 0 ∧
    scan_body score_func matrix 0 max_feat max_field = .ok (max_feat, max_field) := by
  refine ⟨rfl, rfl, rfl, rfl, scan_body_zero score_func matrix max_feat max_field⟩

end xLearn
